import Mathlib

/-!
Verification of the trace-parsing and statistical-aggregation core of the
Pmu-Pdc_Sim repository (the two analysis scripts
UpfOnTelco_PdcOnCloud/CloudLogAnalysis.py and
UpfOnTelco_PdcOnEdge/UpfTelcoLogAnalysis.py).

The Python code is shallowly embedded: CSV rows are lists of character
lists, Python floats are modelled as exact rationals (every claim under
study is about which exact arithmetic expression is computed, never about
rounding), Python dicts are insertion-ordered association lists, and the
row-local exception control flow (ValueError / IndexError caught by the
per-row handler) is modelled with Option / Except.  Functions keep the
names of the source functions they embed.
-/

/-- Characters of a string literal, the form in which concrete CSV cells
are fed to the embedded code. -/
def chars (s : String) : List Char := s.data

/-- Python str.strip() : drop ASCII whitespace from both ends. -/
def stripWs (s : List Char) : List Char :=
  ((s.dropWhile Char.isWhitespace).reverse.dropWhile Char.isWhitespace).reverse

/-- Python str.strip(quote-char) as used for row cells: drop any leading and
trailing double-quote characters. -/
def stripQuotes (s : List Char) : List Char :=
  ((s.dropWhile (fun c => c = '"')).reverse.dropWhile (fun c => c = '"')).reverse

/-- Value of a list of decimal digit characters, most significant first. -/
def digitsToNat (s : List Char) : Nat :=
  s.foldl (fun a c => 10 * a + (c.toNat - 48)) 0

/-- Split a character list at every occurrence of one separator character. -/
def splitOnChar (sep : Char) : List Char → List (List Char)
  | [] => [[]]
  | c :: rest =>
    match splitOnChar sep rest with
    | [] => [[]]
    | h :: t => if c = sep then [] :: h :: t else (c :: h) :: t

/-- A digit or a dot, the character class of the regex group that captures
times and distances. -/
def isDigitDot (c : Char) : Bool := c.isDigit || c = '.'

/-- Structural part of Python float() on an unsigned decimal literal
(the only float syntax the traces and the regex group produce):
some (integer-and-fraction numerator, number of fraction digits), or none
when the text is not a valid decimal (no digit at all, or several dots) and
float() raises ValueError.  Kept in Nat so that the kernel can evaluate it. -/
def floatParts? (s : List Char) : Option (Nat × Nat) :=
  if s ≠ [] ∧ s.all isDigitDot then
    match splitOnChar '.' s with
    | [d] => if d ≠ [] then some (digitsToNat d, 0) else none
    | [a, b] =>
      if a = [] ∧ b = [] then none
      else some (digitsToNat a * 10 ^ b.length + digitsToNat b, b.length)
    | _ => none
  else none

/-- The rational value of a decimal literal decomposed by floatParts?. -/
def ratOfParts (p : Nat × Nat) : ℚ := (p.1 : ℚ) / 10 ^ p.2

/-- Python float() on a stripped cell, modelled for plain decimal literals
with an optional sign (the format the simulator emits everywhere the
analysis reads a float). -/
def pyFloat? (s : List Char) : Option ℚ :=
  let t := stripWs s
  if t.head? = some '-' then (floatParts? (t.drop 1)).map (fun p => -ratOfParts p)
  else if t.head? = some '+' then (floatParts? (t.drop 1)).map ratOfParts
  else (floatParts? t).map ratOfParts

/-- Python int() on a stripped cell: optional sign followed by digits. -/
def pyInt? (s : List Char) : Option ℤ :=
  match stripWs s with
  | '-' :: t => if t ≠ [] ∧ t.all Char.isDigit then some (-(digitsToNat t : ℤ)) else none
  | '+' :: t => if t ≠ [] ∧ t.all Char.isDigit then some (digitsToNat t : ℤ) else none
  | t => if t ≠ [] ∧ t.all Char.isDigit then some (digitsToNat t : ℤ) else none

/-- The two-character separator of the containment test `'->' in path`. -/
def arrowLit : List Char := ['-', '>']

/-- The four-character separator of `path.split(' -> ')`. -/
def arrowSep : List Char := [' ', '-', '>', ' ']

/-- Python `sub in s` : some occurrence of the pattern starts somewhere. -/
def containsSeq (pat : List Char) : List Char → Bool
  | [] => pat.isEmpty
  | c :: rest => pat.isPrefixOf (c :: rest) || containsSeq pat rest

/-- Python path.split(' -> ') : split at every non-overlapping leftmost
occurrence of the four-character separator. -/
def splitArrow : List Char → List (List Char)
  | ' ' :: '-' :: '>' :: ' ' :: rest => [] :: splitArrow rest
  | c :: cs =>
    match splitArrow cs with
    | [] => [[]]
    | h :: t => (c :: h) :: t
  | [] => [[]]

/-- The literal "GNB_". -/
def gnbLit : List Char := ['G', 'N', 'B', '_']

/-- The literal "Unknown". -/
def unknownLit : List Char := ['U', 'n', 'k', 'n', 'o', 'w', 'n']

/-- The regex alternation (GNB_\d+|GNB_Unknown) anchored at the start:
returns the matched relay name and the remaining characters.  The two
branches are disjoint after "GNB_" (digit versus 'U'), so the embedding is
the deterministic one. -/
def matchGnbName (s : List Char) : Option (List Char × List Char) :=
  if gnbLit.isPrefixOf s then
    let rest := s.drop 4
    let ds := rest.takeWhile Char.isDigit
    if ds ≠ [] then some (gnbLit ++ ds, rest.drop ds.length)
    else if unknownLit.isPrefixOf rest then
      some (gnbLit ++ unknownLit, rest.drop 7)
    else none
  else none

/-- The regex \(([\d.]+)s,\s*([\d.]+)m\) anchored at the start: returns the
two captured groups (time text, distance text).  Every greedy class in the
pattern is disjoint from the literal that follows it, so greedy matching
with no backtracking coincides with the regex. -/
def matchParenAt (s : List Char) : Option (List Char × List Char) :=
  match s with
  | '(' :: r =>
    let a := r.takeWhile isDigitDot
    if a = [] then none else
    match r.drop a.length with
    | 's' :: ',' :: r2 =>
      let r3 := r2.dropWhile Char.isWhitespace
      let b := r3.takeWhile isDigitDot
      if b = [] then none else
      match r3.drop b.length with
      | 'm' :: ')' :: _ => some (a, b)
      | _ => none
    | _ => none
  | _ => none

/-- re.search of \(([\d.]+)s,\s*([\d.]+)m\) : try every start position left
to right. -/
def searchParen : List Char → Option (List Char × List Char)
  | [] => none
  | c :: rest =>
    match matchParenAt (c :: rest) with
    | some r => some r
    | none => searchParen rest

/-- The regex \(([\d.]+)s, anchored at the start, as used by
calculate_pmu_to_gnb_average_times: returns the captured time text. -/
def matchTimeCommaAt (s : List Char) : Option (List Char) :=
  match s with
  | '(' :: r =>
    let a := r.takeWhile isDigitDot
    if a = [] then none else
    match r.drop a.length with
    | 's' :: ',' :: _ => some a
    | _ => none
  | _ => none

/-- re.search of \(([\d.]+)s, . -/
def searchTimeComma : List Char → Option (List Char)
  | [] => none
  | c :: rest =>
    match matchTimeCommaAt (c :: rest) with
    | some r => some r
    | none => searchTimeComma rest

/-- re.match of (GNB_\d+|GNB_Unknown)\s*\(([\d.]+)s,\s*([\d.]+)m\) on the
first path token: relay name and the two captured texts. -/
def gnbTokenMatch (s : List Char) : Option (List Char × List Char × List Char) :=
  match matchGnbName s with
  | none => none
  | some (nm, rest) =>
    match matchParenAt (rest.dropWhile Char.isWhitespace) with
    | none => none
    | some (a, b) => some (nm, a, b)

/-! ## Path decoding (the hop-extraction block shared verbatim by both
analysis scripts, CloudLogAnalysis lines 204-261 and UpfTelcoLogAnalysis
lines 225-284). -/

/-- The raw regex output of the three hop extractions on the split path:
first token through re.match of the relay pattern, second and third through
re.search of the parenthesis pattern.  Text level only, so that the kernel
can evaluate it. -/
structure RawSlots where
  s1 : Option (List Char × List Char × List Char)
  s2 : Option (List Char × List Char)
  s3 : Option (List Char × List Char)
deriving DecidableEq

/-- The three guarded hop extractions over path_parts. -/
def decodeRaw (parts : List (List Char)) : RawSlots :=
  { s1 := if parts.length ≥ 2 then gnbTokenMatch (stripWs (parts.getD 1 [])) else none
    s2 := if parts.length ≥ 3 then searchParen (stripWs (parts.getD 2 [])) else none
    s3 := if parts.length ≥ 4 then searchParen (stripWs (parts.getD 3 [])) else none }

/-- One decoded path: the optional relay name of the first hop and the six
optional hop time/distance values.  A field is none exactly when the
corresponding Python local stays None because its token failed its regex. -/
structure PathSlots where
  gnbName : Option (List Char)
  pmuToGnbTime : Option ℚ
  pmuToGnbDistance : Option ℚ
  gnbToTelcoTime : Option ℚ
  gnbToTelcoDistance : Option ℚ
  telcoToTsoTime : Option ℚ
  telcoToTsoDistance : Option ℚ

/-- float() on the two captured groups of one time/distance match; a
ValueError (a captured text that is not a valid decimal) aborts the row. -/
def liftPair : Option (List Char × List Char) → Except Unit (Option ℚ × Option ℚ)
  | none => .ok (none, none)
  | some (a, b) =>
    match floatParts? a, floatParts? b with
    | some pa, some pb => .ok (some (ratOfParts pa), some (ratOfParts pb))
    | _, _ => .error ()

/-- float() on the groups of the first-hop match, keeping the relay name. -/
def liftGnb : Option (List Char × List Char × List Char) →
    Except Unit (Option (List Char) × Option ℚ × Option ℚ)
  | none => .ok (none, none, none)
  | some (nm, a, b) =>
    match floatParts? a, floatParts? b with
    | some pa, some pb => .ok (some nm, some (ratOfParts pa), some (ratOfParts pb))
    | _, _ => .error ()

/-- The full hop-extraction block on the split path: error exactly when some
matched token's captured group fails float() (the ValueError that the
per-row handler turns into a row skip); a token that fails its regex yields
none fields and the remaining tokens are still decoded. -/
def decodeParts (parts : List (List Char)) : Except Unit PathSlots :=
  let r := decodeRaw parts
  match liftGnb r.s1, liftPair r.s2, liftPair r.s3 with
  | .ok (nm, t1, d1), .ok (t2, d2), .ok (t3, d3) => .ok ⟨nm, t1, d1, t2, d2, t3, d3⟩
  | _, _, _ => .error ()

/-! ## Association-list model of the Python dicts. -/

/-- dict.get(k, d). -/
def getA {κ α : Type} [DecidableEq κ] (l : List (κ × α)) (k : κ) (d : α) : α :=
  match l with
  | [] => d
  | (q, v) :: t => if q = k then v else getA t k d

/-- k in dict. -/
def lookupA {κ α : Type} [DecidableEq κ] (l : List (κ × α)) (k : κ) : Option α :=
  match l with
  | [] => none
  | (q, v) :: t => if q = k then some v else lookupA t k

/-- dict[k] = v : update in place, or append a new key in insertion order. -/
def setA {κ α : Type} [DecidableEq κ] (l : List (κ × α)) (k : κ) (v : α) : List (κ × α) :=
  match l with
  | [] => [(k, v)]
  | (q, w) :: t => if q = k then (k, v) :: t else (q, w) :: setA t k v

/-! ## Aggregation state of read_pmu_positions_from_csv. -/

/-- The per-device hop_times entry: the six sample lists and the assigned
relay name. -/
structure HopData where
  gnbTimes : List ℚ
  gnbToTelcoTimes : List ℚ
  telcoToTsoTimes : List ℚ
  gnbDistances : List ℚ
  gnbToTelcoDistances : List ℚ
  telcoToTsoDistances : List ℚ
  gnbName : Option (List Char)

/-- Append a sample if the hop value was decoded, else leave the list. -/
def appendOpt (l : List ℚ) : Option ℚ → List ℚ
  | none => l
  | some q => l ++ [q]

/-- The six conditional appends of one decoded path into a hop_times
entry. -/
def appendSlots (d : HopData) (p : PathSlots) : HopData :=
  { d with
    gnbTimes := appendOpt d.gnbTimes p.pmuToGnbTime
    gnbDistances := appendOpt d.gnbDistances p.pmuToGnbDistance
    gnbToTelcoTimes := appendOpt d.gnbToTelcoTimes p.gnbToTelcoTime
    gnbToTelcoDistances := appendOpt d.gnbToTelcoDistances p.gnbToTelcoDistance
    telcoToTsoTimes := appendOpt d.telcoToTsoTimes p.telcoToTsoTime
    telcoToTsoDistances := appendOpt d.telcoToTsoDistances p.telcoToTsoDistance }

/-- The mutable state of the read_pmu_positions_from_csv ingest loop:
pmus, seen_pmu_ids, hop_times, deadline_missed_stats (the latter keyed
device id to (total transfers, deadline missed)). -/
structure ReadState where
  pmus : List (ℤ × ℚ × ℚ)
  seenPmuIds : List ℤ
  hopTimes : List (ℤ × HopData)
  deadlineMissedStats : List (ℤ × ℕ × ℕ)

/-- All accumulators empty. -/
def initState : ReadState := ⟨[], [], [], []⟩

/-- Create-or-increment of deadline_missed_stats for one record. -/
def bumpDeadline (l : List (ℤ × ℕ × ℕ)) (k : ℤ) (missed : Bool) : List (ℤ × ℕ × ℕ) :=
  let cur := getA l k (0, 0)
  setA l k (cur.1 + 1, cur.2 + if missed then 1 else 0)

/-- The coordinate parser of the position block: require the enclosing
parentheses, split at the first comma only, float() both coordinates; any
failure yields none (position skipped, row kept). -/
def parseCoords? (coords : List Char) : Option (ℚ × ℚ) :=
  if coords.head? = some '(' ∧ coords.getLast? = some ')' then
    let inner := (coords.drop 1).dropLast
    if inner.contains ',' then
      let xs := inner.takeWhile (fun c => c ≠ ',')
      let ys := (inner.dropWhile (fun c => c ≠ ',')).drop 1
      match pyFloat? (stripWs xs), pyFloat? (stripWs ys) with
      | some x, some y => some (x, y)
      | _, _ => none
    else none
  else none

/-- The position block: store the first successfully parsed coordinates of
a device not seen before; afterwards the device is marked seen and never
updated again. -/
def coordsStep (s : ReadState) (pmuId : ℤ) (coords : List Char) : ReadState :=
  if s.seenPmuIds.contains pmuId then s
  else
    match parseCoords? coords with
    | some (x, y) =>
      { s with pmus := s.pmus ++ [(pmuId, x, y)],
               seenPmuIds := s.seenPmuIds ++ [pmuId] }
    | none => s

/-! ## The UpfTelco (edge) variant of read_pmu_positions_from_csv:
7 columns, status literal "L", relay name overwritten by every decoded
record (UpfTelcoLogAnalysis lines 186-325). -/

/-- The hop_times update of the edge variant: none when a float() in the
decode raised (row aborted after the deadline-stats update), otherwise the
state with the entry created on first use and the relay name overwritten
whenever this record decoded one. -/
def telcoPathStep (s : ReadState) (pmuId : ℤ) (path : List Char) : Option ReadState :=
  if containsSeq arrowLit path = false then some s
  else
    match decodeParts (splitArrow path) with
    | .error _ => none
    | .ok p =>
      let d1 := appendSlots (getA s.hopTimes pmuId ⟨[], [], [], [], [], [], p.gnbName⟩) p
      let d2 := match p.gnbName with
        | some nm => { d1 with gnbName := some nm }
        | none => d1
      some { s with hopTimes := setA s.hopTimes pmuId d2 }

/-- One iteration of the edge ingest loop: exact 7-column check, scalar
field parses (a failure skips the row before any update), the unconditional
deadline-stats update, the path block, the position block. -/
def telcoReadPmuRow (s : ReadState) (row : List (List Char)) : ReadState :=
  if row.length ≠ 7 then s
  else
    match pyFloat? (row.getD 0 []), pyInt? (row.getD 1 []), pyFloat? (row.getD 3 []),
          pyFloat? (row.getD 5 []) with
    | some _, some pmuId, some _, some _ =>
      let coords := stripQuotes (row.getD 2 [])
      let path := stripQuotes (row.getD 4 [])
      let status := stripWs (row.getD 6 [])
      let ds := bumpDeadline s.deadlineMissedStats pmuId (decide (status = chars "L"))
      let s1 := { s with deadlineMissedStats := ds }
      match telcoPathStep s1 pmuId path with
      | none => s1
      | some s2 => coordsStep s2 pmuId coords
    | _, _, _, _ => s

/-- The edge ingest loop over a whole trace. -/
def telcoReadPmuPositions (rows : List (List (List Char))) : ReadState :=
  rows.foldl telcoReadPmuRow initState

/-! ## The Cloud variant of read_pmu_positions_from_csv: 8 named columns
through pandas, status literal "DEADLINE_MISSED", relay name kept sticky
(CloudLogAnalysis lines 178-311). -/

/-- One row of the cloud trace as the eight named columns of the validated
DataFrame. -/
structure CloudRaw where
  time : List Char
  pmuID : List Char
  pmuCoordinates : List Char
  dataSize : List Char
  gnbTarget : List Char
  path : List Char
  hopSum : List Char
  status : List Char

/-- The hop_times update of the cloud variant: as the edge one except that
the relay name is only set when not already set (the first-seen rule of
CloudLogAnalysis lines 262-270; relay names are never empty, so Python
falsiness is none-ness here). -/
def cloudPathStep (s : ReadState) (pmuId : ℤ) (path : List Char) : Option ReadState :=
  if containsSeq arrowLit path = false then some s
  else
    match decodeParts (splitArrow path) with
    | .error _ => none
    | .ok p =>
      let d1 := appendSlots (getA s.hopTimes pmuId ⟨[], [], [], [], [], [], p.gnbName⟩) p
      let d2 := match p.gnbName with
        | some nm => if d1.gnbName = none then { d1 with gnbName := some nm } else d1
        | none => d1
      some { s with hopTimes := setA s.hopTimes pmuId d2 }

/-- One iteration of the cloud ingest loop. -/
def cloudReadPmuRow (s : ReadState) (row : CloudRaw) : ReadState :=
  match pyFloat? row.time, pyInt? row.pmuID, pyFloat? row.dataSize, pyFloat? row.hopSum with
  | some _, some pmuId, some _, some _ =>
    let coords := stripQuotes row.pmuCoordinates
    let path := stripQuotes row.path
    let status := stripWs row.status
    let ds := bumpDeadline s.deadlineMissedStats pmuId (decide (status = chars "DEADLINE_MISSED"))
    let s1 := { s with deadlineMissedStats := ds }
    match cloudPathStep s1 pmuId path with
    | none => s1
    | some s2 => coordsStep s2 pmuId coords
  | _, _, _, _ => s

/-- The cloud ingest loop over a whole trace. -/
def cloudReadPmuPositions (rows : List CloudRaw) : ReadState :=
  rows.foldl cloudReadPmuRow initState

/-! ## Statistics derivation from the read-pass accumulators (the
hop-average loop, CloudLogAnalysis lines 328-386 and UpfTelcoLogAnalysis
lines 346-404; textually identical in the two scripts). -/

/-- sum(times)/len(times) when the list is non-empty, the 0.0 sentinel
otherwise — the guarded average written out at each hop class. -/
def avgOrZero (l : List ℚ) : ℚ := if l = [] then 0 else l.sum / l.length

/-- One derived hop_averages entry. -/
structure HopAvg where
  gnb : ℚ
  gnbCount : ℕ
  gnbDistance : ℚ
  gnbToTelco : ℚ
  gnbToTelcoCount : ℕ
  gnbToTelcoDistance : ℚ
  telcoToTso : ℚ
  telcoToTsoCount : ℕ
  telcoToTsoDistance : ℚ
  gnbName : Option (List Char)
  totalTransfers : ℕ
  deadlineMissed : ℕ
  deadlineMissedRate : ℚ

/-- Derivation of one device's hop_averages entry from its hop_times entry
and its deadline_missed_stats entry (when present).  The count fields equal
the list lengths in both branches of the source's conditional, and the
gnb_name lookup returns the stored value (possibly None) because the key is
always present. -/
def deriveHopAvg (st : Option (ℕ × ℕ)) (d : HopData) : HopAvg :=
  { gnb := avgOrZero d.gnbTimes
    gnbCount := d.gnbTimes.length
    gnbDistance := avgOrZero d.gnbDistances
    gnbToTelco := avgOrZero d.gnbToTelcoTimes
    gnbToTelcoCount := d.gnbToTelcoTimes.length
    gnbToTelcoDistance := avgOrZero d.gnbToTelcoDistances
    telcoToTso := avgOrZero d.telcoToTsoTimes
    telcoToTsoCount := d.telcoToTsoTimes.length
    telcoToTsoDistance := avgOrZero d.telcoToTsoDistances
    gnbName := d.gnbName
    totalTransfers := match st with | some (t, _) => t | none => 0
    deadlineMissed := match st with | some (_, m) => m | none => 0
    deadlineMissedRate :=
      match st with
      | some (t, m) => if 0 < t then (m : ℚ) / t * 100 else 0
      | none => 0 }

/-- The hop-average loop over all devices of the hop_times dict. -/
def hopAverages (ht : List (ℤ × HopData)) (stats : List (ℤ × ℕ × ℕ)) :
    List (ℤ × HopAvg) :=
  ht.map (fun e => (e.1, deriveHopAvg (lookupA stats e.1) e.2))

/-! ## calculate_accurate_transfer_stats (CloudLogAnalysis lines 398-497):
the per-device / per-relay rollup that requires a decodable first-hop relay
name and skips the row entirely otherwise. -/

/-- One pmu_stats entry: ok count, total count, last stored relay name,
hop-sum samples. -/
structure PmuTS where
  ok : ℕ
  total : ℕ
  gnbName : List Char
  hopSumTimes : List ℚ

/-- The two dicts built by calculate_accurate_transfer_stats. -/
structure AccStats where
  pmuStats : List (ℤ × PmuTS)
  gnbStats : List (List Char × ℕ × ℕ)

/-- The relay-name extraction of calculate_accurate_transfer_stats: the
name regex alone on the second path part. -/
def accGnbName? (path : List Char) : Option (List Char) :=
  if containsSeq arrowLit path then
    let parts := splitArrow path
    if parts.length ≥ 2 then (matchGnbName (stripWs (parts.getD 1 []))).map Prod.fst
    else none
  else none

/-- One iteration of the calculate_accurate_transfer_stats loop: exact
8-column check, int/float parses (failure skips the row), relay-name
extraction with row skip when it fails, then the per-device and per-relay
updates (the relay name of the device is overwritten on every row,
CloudLogAnalysis line 468). -/
def accRow (st : AccStats) (row : List (List Char)) : AccStats :=
  if row.length ≠ 8 then st
  else
    match pyInt? (row.getD 1 []), pyFloat? (row.getD 6 []) with
    | some pmuId, some hopSum =>
      let path := stripQuotes (row.getD 5 [])
      let status := stripWs (row.getD 7 [])
      match accGnbName? path with
      | none => st
      | some g =>
        let p := getA st.pmuStats pmuId ⟨0, 0, g, []⟩
        let gs := getA st.gnbStats g (0, 0)
        let okInc : ℕ := if status = chars "OK" then 1 else 0
        { pmuStats := setA st.pmuStats pmuId
            ⟨p.ok + okInc, p.total + 1, g, p.hopSumTimes ++ [hopSum]⟩
          gnbStats := setA st.gnbStats g (gs.1 + okInc, gs.2 + 1) }
    | _, _ => st

/-- The calculate_accurate_transfer_stats loop over a whole trace. -/
def calculateAccurateTransferStats (rows : List (List (List Char))) : AccStats :=
  rows.foldl accRow ⟨[], []⟩

/-- The avg_hop_sum value appended to each pmu_stats entry at the end of
calculate_accurate_transfer_stats. -/
def avgHopSum (p : PmuTS) : ℚ :=
  if p.hopSumTimes = [] then 0 else p.hopSumTimes.sum / p.hopSumTimes.length

/-! ## calculate_overall_deadline_missed (CloudLogAnalysis lines 499-548):
the global accumulator pass. -/

/-- The returned stats dict. -/
structure OverallStats where
  totalTransfers : ℕ
  deadlineMissed : ℕ
  deadlineMissedRate : ℚ
deriving DecidableEq

/-- One iteration of the global pass: rows whose cell count differs from 7
are skipped; every other row is counted, with its 7th cell as status. -/
def overallRow (s : ℕ × ℕ) (row : List (List Char)) : ℕ × ℕ :=
  if row.length ≠ 7 then s
  else (s.1 + 1, s.2 + if stripWs (row.getD 6 []) = chars "DEADLINE_MISSED" then 1 else 0)

/-- The global pass over a whole trace, with the guarded rate at the end. -/
def calculateOverallDeadlineMissed (rows : List (List (List Char))) : OverallStats :=
  let c := rows.foldl overallRow (0, 0)
  { totalTransfers := c.1
    deadlineMissed := c.2
    deadlineMissedRate := if 0 < c.1 then (c.2 : ℚ) / c.1 * 100 else 0 }

/-! ## calculate_pmu_to_gnb_average_times (CloudLogAnalysis lines 550-616):
per-device mean of the first-hop times, over at most the first 2000 data
rows (the line_num > 2000 break). -/

/-- One iteration: 8-column check, device id parse, first-hop time capture
through re.search of \(([\d.]+)s, ; a float() failure on the captured text
skips the row before the append. -/
def pmuGnbRow (m : List (ℤ × List ℚ)) (row : List (List Char)) : List (ℤ × List ℚ) :=
  if row.length ≠ 8 then m
  else
    match pyInt? (row.getD 1 []) with
    | none => m
    | some pmuId =>
      let path := stripQuotes (row.getD 5 [])
      if containsSeq arrowLit path then
        let parts := splitArrow path
        if parts.length ≥ 2 then
          match searchTimeComma (stripWs (parts.getD 1 [])) with
          | some a =>
            match floatParts? a with
            | some pa => setA m pmuId (getA m pmuId [] ++ [ratOfParts pa])
            | none => m
          | none => m
        else m
      else m

/-- The per-device averages dict: every device with at least one captured
sample maps to the mean of its samples. -/
def calculatePmuToGnbAverageTimes (rows : List (List (List Char))) : List (ℤ × ℚ) :=
  ((rows.take 2000).foldl pmuGnbRow []).filterMap
    (fun e => if e.2 = [] then none else some (e.1, e.2.sum / e.2.length))

/-! ## The per-relay summary block (CloudLogAnalysis lines 1345-1360 and
1647-1663, the same computation in the report and the CSV export): relay
average time = mean of the positive per-device average times of the devices
whose stored relay name is this relay. -/

/-- The gnb_times collection and guarded mean for one relay. -/
def relayAvgTime (pmuStats : List (ℤ × PmuTS)) (avgTimes : List (ℤ × ℚ)) (g : List Char) : ℚ :=
  let ts := pmuStats.filterMap (fun e =>
    if e.2.gnbName = g then
      let t := getA avgTimes e.1 0
      if 0 < t then some t else none
    else none)
  if ts = [] then 0 else ts.sum / ts.length

/-- The guarded success rate ok/total*100 of the report lines
(CloudLogAnalysis lines 1312, 1343, 1612, 1645). -/
def successRate (ok total : ℕ) : ℚ :=
  if 0 < total then (ok : ℚ) / total * 100 else 0

/-! ## Boolean row conditions used to state the claims. -/

/-- Constructor-level success of the decode (no float() ValueError). -/
def decodeOk : Except Unit PathSlots → Bool
  | .ok _ => true
  | .error _ => false

/-- The path block of a row cannot abort it: either no separator, or a
decode with no float() failure. -/
def pathNoAbort (path : List Char) : Bool :=
  !(containsSeq arrowLit path) || decodeOk (decodeParts (splitArrow path))

/-! ## Concrete traces used by the theorems and witnesses. -/

/-- An 8-column cloud-schema row whose transfer missed its deadline. -/
def cloudTraceRow8 : List (List Char) :=
  [chars "0.1", chars "1", chars "(5.0,6.0)", chars "2.0", chars "GNB_1",
   chars "PMU -> GNB_1 (0.1s, 10.0m) -> TELCO (0.2s, 500.0m)", chars "0.3",
   chars "DEADLINE_MISSED"]

/-- An 8-column cloud-schema row with no routing separator in its path. -/
def cloudTraceRow8NoPath : List (List Char) :=
  [chars "0.1", chars "2", chars "(5.0,6.0)", chars "2.0", chars "GNB_1",
   chars "PMU", chars "0.3", chars "OK"]

/-- A 7-column edge-schema row naming relay GNB_1 for device 1. -/
def telcoRowG1 : List (List Char) :=
  [chars "0.1", chars "1", chars "(100.0,200.0)", chars "2.0",
   chars "PMU -> GNB_1 (0.1s, 10.0m) -> TELCO (0.2s, 500.0m)", chars "0.3", chars "S"]

/-- A later 7-column edge-schema row for the same device naming GNB_2. -/
def telcoRowG2 : List (List Char) :=
  [chars "0.2", chars "1", chars "(100.0,200.0)", chars "2.0",
   chars "PMU -> GNB_2 (0.2s, 20.0m) -> TELCO (0.2s, 500.0m)", chars "0.3", chars "S"]

/-- A cloud DataFrame row naming relay GNB_1 for device 1. -/
def cloudRawG1 : CloudRaw :=
  ⟨chars "0.1", chars "1", chars "(100.0,200.0)", chars "2.0", chars "GNB_1",
   chars "PMU -> GNB_1 (0.1s, 10.0m) -> TELCO (0.2s, 500.0m)", chars "0.3", chars "OK"⟩

/-- A later cloud DataFrame row for the same device naming GNB_2. -/
def cloudRawG2 : CloudRaw :=
  ⟨chars "0.2", chars "1", chars "(100.0,200.0)", chars "2.0", chars "GNB_2",
   chars "PMU -> GNB_2 (0.2s, 20.0m) -> TELCO (0.2s, 500.0m)", chars "0.3", chars "OK"⟩

/-- A device state whose hop_times entry for device 1 already carries relay
GNB_1 (used to instantiate the sticky-relay statements). -/
def stickyState : ReadState :=
  ⟨[], [], [(1, ⟨[], [], [], [], [], [], some (chars "GNB_1")⟩)], []⟩

/-- The hop_times entry written by the edge variant for a record whose
decode names a relay: the appended entry with the relay name overwritten. -/
def telcoEntry (s' : ReadState) (pid : ℤ) (p : PathSlots) (nm : List Char) : HopData :=
  { appendSlots (getA s'.hopTimes pid ⟨[], [], [], [], [], [], p.gnbName⟩) p with
    gnbName := some nm }

/-- The decoded slots of telcoRowG2's path. -/
def telcoSlotsG2 : PathSlots :=
  ⟨some (chars "GNB_2"), some (ratOfParts (2, 1)), some (ratOfParts (200, 1)),
   some (ratOfParts (2, 1)), some (ratOfParts (5000, 1)), none, none⟩

/-- A cloud DataFrame row whose status token is the unrecognized "BOGUS". -/
def cloudRawBogus : CloudRaw :=
  ⟨chars "0.1", chars "1", chars "(100.0,200.0)", chars "2.0", chars "GNB_1",
   chars "PMU -> GNB_1 (0.1s, 10.0m) -> TELCO (0.2s, 500.0m)", chars "0.3", chars "BOGUS"⟩

/-- An 8-column rollup row whose status token is the unrecognized "BOGUS". -/
def cloudTraceRow8Bogus : List (List Char) :=
  [chars "0.1", chars "1", chars "(5.0,6.0)", chars "2.0", chars "GNB_1",
   chars "PMU -> GNB_1 (0.1s, 10.0m) -> TELCO (0.2s, 500.0m)", chars "0.3", chars "BOGUS"]

/-- A 7-column edge row whose status token is the unrecognized "X". -/
def telcoRowStatusX : List (List Char) :=
  [chars "0.1", chars "1", chars "(100.0,200.0)", chars "2.0",
   chars "PMU -> GNB_1 (0.1s, 10.0m) -> TELCO (0.2s, 500.0m)", chars "0.3", chars "X"]

/-- A cloud DataFrame row for device 2 whose path has no routing separator
(zero decoded hops). -/
def cloudRawNoPath : CloudRaw :=
  ⟨chars "0.1", chars "2", chars "(5.0,6.0)", chars "2.0", chars "GNB_1",
   chars "PMU", chars "0.3", chars "OK"⟩

/-- A 7-column row with no routing separator in its path. -/
def telcoRow7NoPath : List (List Char) :=
  [chars "0.1", chars "2", chars "(5.0,6.0)", chars "2.0", chars "PMU",
   chars "0.3", chars "OK"]

/-- A second edge row for device 1 with different parseable coordinates. -/
def telcoRowOtherCoords : List (List Char) :=
  [chars "0.2", chars "1", chars "(300.0,400.0)", chars "2.0",
   chars "PMU -> GNB_1 (0.1s, 10.0m)", chars "0.1", chars "S"]

/-- A second cloud row for device 1 with different parseable coordinates. -/
def cloudRawOtherCoords : CloudRaw :=
  ⟨chars "0.2", chars "1", chars "(300.0,400.0)", chars "2.0", chars "GNB_1",
   chars "PMU -> GNB_1 (0.1s, 10.0m)", chars "0.1", chars "OK"⟩

/-- A row passes its scalar parses for a given device and its path block
cannot abort (the conditions under which the edge ingest fully processes
the row). -/
def telcoRowFor (row : List (List Char)) (id : ℤ) : Bool :=
  (row.length == 7) && (pyFloat? (row.getD 0 [])).isSome &&
    (pyInt? (row.getD 1 []) == some id) && (pyFloat? (row.getD 3 [])).isSome &&
    (pyFloat? (row.getD 5 [])).isSome && pathNoAbort (stripQuotes (row.getD 4 []))

/-- The row's coordinate token fails the position parser. -/
def coordsUnparseable (row : List (List Char)) : Bool :=
  (parseCoords? (stripQuotes (row.getD 2 []))).isNone

/-- The row's status token is the edge deadline-missed literal. -/
def telcoRowMissed (row : List (List Char)) : Bool :=
  decide (stripWs (row.getD 6 []) = chars "L")

/-- An edge row for device 9 with an unparseable coordinate token and a
missed deadline. -/
def telcoRow9a : List (List Char) :=
  [chars "0.1", chars "9", chars "oops", chars "2.0",
   chars "PMU -> GNB_1 (0.1s, 10.0m)", chars "0.1", chars "L"]

/-- A second such row for device 9, on time. -/
def telcoRow9b : List (List Char) :=
  [chars "0.2", chars "9", chars "(nocomma)", chars "2.0",
   chars "PMU -> GNB_1 (0.1s, 10.0m)", chars "0.1", chars "S"]

/-- A later row for device 9 whose coordinate token parses. -/
def telcoRow9c : List (List Char) :=
  [chars "0.3", chars "9", chars "(7.0,8.0)", chars "2.0",
   chars "PMU -> GNB_1 (0.1s, 10.0m)", chars "0.1", chars "S"]

/-- Modelled from the spec wording of the amended two-level rule: the
unweighted mean of the positive device-level average times of the devices
assigned to the relay (0 when none is positive). -/
def relayMeanOfPositiveDeviceMeans (pmuStats : List (ℤ × PmuTS))
    (avgTimes : List (ℤ × ℚ)) (g : List Char) : ℚ :=
  let ds := (pmuStats.filterMap
    (fun e => if e.2.gnbName = g then some (getA avgTimes e.1 0) else none)).filter
      (fun t => 0 < t)
  if ds = [] then 0 else ds.sum / ds.length

/-- A cloud trace whose relay GNB_1 serves device 1 (first-hop time 0.1s)
and device 2 (first-hop time 0.0s, a zero device-level average). -/
def czrows : List (List (List Char)) :=
  [[chars "0.1", chars "1", chars "(1.0,2.0)", chars "2.0", chars "GNB_1",
    chars "PMU -> GNB_1 (0.1s, 10.0m) -> TELCO (0.2s, 500.0m)", chars "0.3", chars "OK"],
   [chars "0.2", chars "2", chars "(3.0,4.0)", chars "2.0", chars "GNB_1",
    chars "PMU -> GNB_1 (0.0s, 10.0m) -> TELCO (0.2s, 500.0m)", chars "0.3", chars "OK"]]

/-- A cloud trace with unequal sample counts: three transfers of device 1
at 0.1s and one transfer of device 2 at 0.3s, all through GNB_1. -/
def curows : List (List (List Char)) :=
  [[chars "0.1", chars "1", chars "(1.0,2.0)", chars "2.0", chars "GNB_1",
    chars "PMU -> GNB_1 (0.1s, 10.0m) -> TELCO (0.2s, 500.0m)", chars "0.3", chars "OK"],
   [chars "0.2", chars "1", chars "(1.0,2.0)", chars "2.0", chars "GNB_1",
    chars "PMU -> GNB_1 (0.1s, 10.0m) -> TELCO (0.2s, 500.0m)", chars "0.3", chars "OK"],
   [chars "0.3", chars "1", chars "(1.0,2.0)", chars "2.0", chars "GNB_1",
    chars "PMU -> GNB_1 (0.1s, 10.0m) -> TELCO (0.2s, 500.0m)", chars "0.3", chars "OK"],
   [chars "0.4", chars "2", chars "(3.0,4.0)", chars "2.0", chars "GNB_1",
    chars "PMU -> GNB_1 (0.3s, 10.0m) -> TELCO (0.2s, 500.0m)", chars "0.3", chars "OK"]]

/-- The cloud row's status token is the cloud deadline-missed literal. -/
def cloudRawMissed (row : CloudRaw) : Bool :=
  decide (stripWs row.status = chars "DEADLINE_MISSED")

/-- A cloud row passes its scalar parses for a given device and its path
block cannot abort. -/
def cloudRowFor (row : CloudRaw) (id : ℤ) : Bool :=
  (pyFloat? row.time).isSome && (pyInt? row.pmuID == some id) &&
    (pyFloat? row.dataSize).isSome && (pyFloat? row.hopSum).isSome &&
    pathNoAbort (stripQuotes row.path)

/-- The cloud row's coordinate token fails the position parser. -/
def cloudCoordsUnparseable (row : CloudRaw) : Bool :=
  (parseCoords? (stripQuotes row.pmuCoordinates)).isNone

/-- A cloud row for device 9 with an unparseable coordinate token and a
missed deadline. -/
def cloudRaw9a : CloudRaw :=
  ⟨chars "0.1", chars "9", chars "oops", chars "2.0", chars "GNB_1",
   chars "PMU -> GNB_1 (0.1s, 10.0m)", chars "0.1", chars "DEADLINE_MISSED"⟩

/-- A second such cloud row for device 9, on time. -/
def cloudRaw9b : CloudRaw :=
  ⟨chars "0.2", chars "9", chars "(nocomma)", chars "2.0", chars "GNB_1",
   chars "PMU -> GNB_1 (0.1s, 10.0m)", chars "0.1", chars "OK"⟩

/-- A later cloud row for device 9 whose coordinate token parses. -/
def cloudRaw9c : CloudRaw :=
  ⟨chars "0.3", chars "9", chars "(7.0,8.0)", chars "2.0", chars "GNB_1",
   chars "PMU -> GNB_1 (0.1s, 10.0m)", chars "0.1", chars "OK"⟩

/-! ## Helper lemmas on the association-list model. -/

theorem lookupA_setA_self {κ α : Type} [DecidableEq κ] (l : List (κ × α)) (k : κ) (v : α) :
    lookupA (setA l k v) k = some v := by
  induction l with
  | nil => simp [setA, lookupA]
  | cons e t ih =>
    obtain ⟨q, w⟩ := e
    by_cases h : q = k
    · simp [setA, lookupA, h]
    · simp [setA, lookupA, h, ih]

theorem lookupA_setA_ne {κ α : Type} [DecidableEq κ] (l : List (κ × α)) (k k' : κ) (v : α)
    (h : k ≠ k') : lookupA (setA l k v) k' = lookupA l k' := by
  induction l with
  | nil => simp [setA, lookupA, h]
  | cons e t ih =>
    obtain ⟨q, w⟩ := e
    by_cases hq : q = k
    · subst hq
      simp [setA, lookupA, h]
    · simp [setA, lookupA, hq, ih]

theorem getA_of_lookupA {κ α : Type} [DecidableEq κ] {l : List (κ × α)} {k : κ} {v : α}
    (d : α) (h : lookupA l k = some v) : getA l k d = v := by
  induction l with
  | nil => simp [lookupA] at h
  | cons e t ih =>
    obtain ⟨q, w⟩ := e
    by_cases hq : q = k
    · simp [lookupA, hq] at h
      simp [getA, hq, h]
    · simp [lookupA, hq] at h
      simp [getA, hq, ih h]

theorem lookupA_append_of_some {κ α : Type} [DecidableEq κ] {l : List (κ × α)} {k : κ} {v : α}
    (e : κ × α) (h : lookupA l k = some v) : lookupA (l ++ [e]) k = some v := by
  induction l with
  | nil => simp [lookupA] at h
  | cons f t ih =>
    obtain ⟨q, w⟩ := f
    by_cases hq : q = k
    · simp [lookupA, hq] at h ⊢
      exact h
    · simp [lookupA, hq] at h ⊢
      exact ih h

theorem lookupA_append_right {κ α : Type} [DecidableEq κ] {l : List (κ × α)} {k : κ}
    (v : α) (h : lookupA l k = none) : lookupA (l ++ [(k, v)]) k = some v := by
  induction l with
  | nil => simp [lookupA]
  | cons f t ih =>
    obtain ⟨q, w⟩ := f
    by_cases hq : q = k
    · simp [lookupA, hq] at h
    · simp [lookupA, hq] at h ⊢
      exact ih h

/-! ## Helper lemmas on the ingest steps. -/

theorem coordsStep_hopTimes (s : ReadState) (i : ℤ) (c : List Char) :
    (coordsStep s i c).hopTimes = s.hopTimes := by
  unfold coordsStep
  split
  · rfl
  · split <;> rfl

theorem coordsStep_deadline (s : ReadState) (i : ℤ) (c : List Char) :
    (coordsStep s i c).deadlineMissedStats = s.deadlineMissedStats := by
  unfold coordsStep
  split
  · rfl
  · split <;> rfl

theorem appendSlots_gnbName (d : HopData) (p : PathSlots) :
    (appendSlots d p).gnbName = d.gnbName := rfl

/-! ## Step lemmas for the relay-assignment rules. -/

theorem cloudPathStep_sticky {s : ReadState} {id : ℤ} {d : HopData} {nm : List Char}
    (pid : ℤ) (path : List Char) {s2 : ReadState}
    (hl : lookupA s.hopTimes id = some d) (hn : d.gnbName = some nm)
    (h : cloudPathStep s pid path = some s2) :
    Option.map HopData.gnbName (lookupA s2.hopTimes id) = some (some nm) := by
  unfold cloudPathStep at h
  split at h
  · cases h
    simp [hl, hn]
  · split at h
    · cases h
    · rename_i p hp
      dsimp only [] at h
      cases h
      by_cases hq : pid = id
      · subst hq
        rw [getA_of_lookupA _ hl]
        cases hpn : p.gnbName with
        | none => simp [hpn, lookupA_setA_self, appendSlots_gnbName, hn]
        | some nm2 => simp [hpn, lookupA_setA_self, appendSlots_gnbName, hn]
      · dsimp only []
        rw [lookupA_setA_ne _ _ _ _ hq, hl]
        simp [hn]

theorem cloudRow_sticky {s : ReadState} {id : ℤ} {d : HopData} {nm : List Char}
    (row : CloudRaw)
    (hl : lookupA s.hopTimes id = some d) (hn : d.gnbName = some nm) :
    Option.map HopData.gnbName (lookupA (cloudReadPmuRow s row).hopTimes id) =
      some (some nm) := by
  unfold cloudReadPmuRow
  split
  · dsimp only []
    split
    · simp [hl, hn]
    · rename_i s2 heq
      rw [coordsStep_hopTimes]
      exact cloudPathStep_sticky _ _ (by simpa using hl) hn heq
  · simp [hl, hn]

theorem cloudIngest_sticky (rows : List CloudRaw) {s : ReadState} {id : ℤ} {d : HopData}
    {nm : List Char}
    (hl : lookupA s.hopTimes id = some d) (hn : d.gnbName = some nm) :
    Option.map HopData.gnbName (lookupA (rows.foldl cloudReadPmuRow s).hopTimes id) =
      some (some nm) := by
  induction rows generalizing s d with
  | nil => simp [hl, hn]
  | cons r t ih =>
    have h := cloudRow_sticky r hl hn
    rw [Option.map_eq_some'] at h
    obtain ⟨d2, hd2, hg2⟩ := h
    exact ih hd2 hg2

theorem telcoPathStep_eq {p : PathSlots} {nm : List Char} (pid : ℤ) (path : List Char)
    (hc : containsSeq arrowLit path = true)
    (hp : decodeParts (splitArrow path) = Except.ok p)
    (hnm : p.gnbName = some nm) (s' : ReadState) :
    telcoPathStep s' pid path =
      some { s' with hopTimes := setA s'.hopTimes pid (telcoEntry s' pid p nm) } := by
  unfold telcoPathStep telcoEntry
  rw [if_neg (by simp [hc])]
  rw [hp]
  dsimp only []
  rw [hnm]

theorem telcoRow_overwrite {s : ReadState} {id : ℤ} {p : PathSlots} {nm : List Char}
    (row : List (List Char)) (q0 q3 q5 : ℚ)
    (h7 : row.length = 7)
    (h0 : pyFloat? (row.getD 0 []) = some q0)
    (h1 : pyInt? (row.getD 1 []) = some id)
    (h3 : pyFloat? (row.getD 3 []) = some q3)
    (h5 : pyFloat? (row.getD 5 []) = some q5)
    (hc : containsSeq arrowLit (stripQuotes (row.getD 4 [])) = true)
    (hp : decodeParts (splitArrow (stripQuotes (row.getD 4 []))) = Except.ok p)
    (hnm : p.gnbName = some nm) :
    Option.map HopData.gnbName (lookupA (telcoReadPmuRow s row).hopTimes id) =
      some (some nm) := by
  unfold telcoReadPmuRow
  rw [if_neg (by simp [h7])]
  rw [h0, h1, h3, h5]
  dsimp only []
  rw [telcoPathStep_eq id (stripQuotes (row.getD 4 [])) hc hp hnm]
  dsimp only []
  rw [coordsStep_hopTimes]
  dsimp only []
  rw [lookupA_setA_self]
  simp [telcoEntry]

theorem accRow_overwrite {st : AccStats} {id : ℤ} {g : List Char}
    (row : List (List Char)) (hs : ℚ)
    (h8 : row.length = 8)
    (h1 : pyInt? (row.getD 1 []) = some id)
    (h6 : pyFloat? (row.getD 6 []) = some hs)
    (hg : accGnbName? (stripQuotes (row.getD 5 [])) = some g) :
    Option.map PmuTS.gnbName (lookupA (accRow st row).pmuStats id) = some g := by
  unfold accRow
  rw [if_neg (by simp [h8])]
  rw [h1, h6]
  dsimp only []
  rw [hg]
  dsimp only []
  rw [lookupA_setA_self]
  simp

/-! ## Claim C1 : the global deadline-missed pass. -/

/-- C1 (code_bug): the claim says every row with the active schema
variant's column count is counted in the global total by outcome.  The
cloud schema has 8 columns and its rollup pass accepts exactly the
8-column rows, but calculate_overall_deadline_missed skips every row whose
cell count differs from 7 (CloudLogAnalysis line 525), so a deadline-missed
row of the active schema reaches the per-relay rollup yet leaves the
authoritative global statistics at zero. -/
theorem cloudOverallDeadline_dropsActiveSchemaRows :
    cloudTraceRow8.length = 8 ∧
    (calculateAccurateTransferStats [cloudTraceRow8]).gnbStats = [(chars "GNB_1", 0, 1)] ∧
    calculateOverallDeadlineMissed [cloudTraceRow8] = ⟨0, 0, 0⟩ :=
  ⟨by decide, by decide, by decide⟩

/-! ## Claim C2 : relay assignment. -/

/-- C2 (counterexample): in the edge variant's hop-averages pass, the
relay decoded from a later record of the same device overwrites the
first-seen one: after ingesting a record naming GNB_1 and then one naming
GNB_2, device 1's assigned relay is GNB_2, not the first-seen GNB_1. -/
theorem telcoRelayAssignment_overwritten :
    Option.map HopData.gnbName (lookupA (telcoReadPmuPositions [telcoRowG1]).hopTimes 1) =
      some (some (chars "GNB_1")) ∧
    Option.map HopData.gnbName
        (lookupA (telcoReadPmuPositions [telcoRowG1, telcoRowG2]).hopTimes 1) =
      some (some (chars "GNB_2")) ∧
    chars "GNB_2" ≠ chars "GNB_1" :=
  ⟨by decide, by decide, by decide⟩

/-- C2 (amended): the first-seen sticky relay rule holds in the cloud
variant's hop-averages pass — once a device's entry carries a relay name,
no later sequence of records changes it; in the edge variant's hop-averages
pass, and in the per-PMU rollup of calculate_accurate_transfer_stats, every
record that decodes a relay overwrites the assignment, so the assigned
relay is the last decoded one. -/
theorem relayAssignment_perVariant :
    (∀ (rows : List CloudRaw) (s : ReadState) (id : ℤ) (d : HopData) (nm : List Char),
        lookupA s.hopTimes id = some d → d.gnbName = some nm →
        Option.map HopData.gnbName (lookupA (rows.foldl cloudReadPmuRow s).hopTimes id) =
          some (some nm)) ∧
    (∀ (s : ReadState) (row : List (List Char)) (id : ℤ) (p : PathSlots)
        (nm : List Char) (q0 q3 q5 : ℚ),
        row.length = 7 →
        pyFloat? (row.getD 0 []) = some q0 →
        pyInt? (row.getD 1 []) = some id →
        pyFloat? (row.getD 3 []) = some q3 →
        pyFloat? (row.getD 5 []) = some q5 →
        containsSeq arrowLit (stripQuotes (row.getD 4 [])) = true →
        decodeParts (splitArrow (stripQuotes (row.getD 4 []))) = Except.ok p →
        p.gnbName = some nm →
        Option.map HopData.gnbName (lookupA (telcoReadPmuRow s row).hopTimes id) =
          some (some nm)) ∧
    (∀ (st : AccStats) (row : List (List Char)) (id : ℤ) (g : List Char) (hs : ℚ),
        row.length = 8 →
        pyInt? (row.getD 1 []) = some id →
        pyFloat? (row.getD 6 []) = some hs →
        accGnbName? (stripQuotes (row.getD 5 [])) = some g →
        Option.map PmuTS.gnbName (lookupA (accRow st row).pmuStats id) = some g) := by
  refine ⟨?_, ?_, ?_⟩
  · intro rows s id d nm hl hn
    exact cloudIngest_sticky rows hl hn
  · intro s row id p nm q0 q3 q5 h7 h0 h1 h3 h5 hc hp hnm
    exact telcoRow_overwrite row q0 q3 q5 h7 h0 h1 h3 h5 hc hp hnm
  · intro st row id g hs h8 h1 h6 hg
    exact accRow_overwrite row hs h8 h1 h6 hg

/-- C2 witness: the three amended rules applied at concrete inputs — a
cloud device already assigned GNB_1 keeps it across a record naming GNB_2,
while the edge pass and the rollup pass assign GNB_2 and GNB_1 from the
concrete record under ingest. -/
theorem relayAssignment_perVariant_witness :
    Option.map HopData.gnbName
        (lookupA ([cloudRawG2].foldl cloudReadPmuRow stickyState).hopTimes 1) =
      some (some (chars "GNB_1")) ∧
    Option.map HopData.gnbName (lookupA (telcoReadPmuRow stickyState telcoRowG2).hopTimes 1) =
      some (some (chars "GNB_2")) ∧
    Option.map PmuTS.gnbName (lookupA (accRow ⟨[], []⟩ cloudTraceRow8).pmuStats 1) =
      some (chars "GNB_1") := by
  have h := relayAssignment_perVariant
  refine ⟨?_, ?_, ?_⟩
  · exact h.1 [cloudRawG2] stickyState 1 ⟨[], [], [], [], [], [], some (chars "GNB_1")⟩
      (chars "GNB_1") rfl rfl
  · exact h.2.1 stickyState telcoRowG2 1 telcoSlotsG2 (chars "GNB_2")
      (ratOfParts (2, 1)) (ratOfParts (20, 1)) (ratOfParts (3, 1))
      (by decide) rfl (by decide) rfl rfl (by decide) rfl rfl
  · exact h.2.2 ⟨[], []⟩ cloudTraceRow8 1 (chars "GNB_1") (ratOfParts (3, 1))
      (by decide) (by decide) rfl (by decide)

/-! ## Claim C3 : a bad hop token yields a null segment and decoding
continues. -/

/-- C3 (confirmed): whenever a hop token in any position of the path fails
its pattern, the decoder yields the null segment for that token — no relay
and no time/distance contribution (every aggregate list receives nothing,
a zero contribution) — while every other token still decodes to its own
paired values, and the row's path step still succeeds in both variants, so
a single bad hop never discards the whole path: stated for a bad first,
bad second and bad third token of a full three-hop path, for a bad first
token of a two-hop path, and for a bad sole token of a one-hop path. -/
theorem decoderBadToken_nullSegment :
    (∀ (path o t1 t2 t3 a2 b2 a3 b3 : List Char) (pa2 pb2 pa3 pb3 : ℕ × ℕ),
        containsSeq arrowLit path = true →
        splitArrow path = [o, t1, t2, t3] →
        gnbTokenMatch (stripWs t1) = none →
        searchParen (stripWs t2) = some (a2, b2) →
        searchParen (stripWs t3) = some (a3, b3) →
        floatParts? a2 = some pa2 → floatParts? b2 = some pb2 →
        floatParts? a3 = some pa3 → floatParts? b3 = some pb3 →
        decodeParts (splitArrow path) = Except.ok
          ⟨none, none, none, some (ratOfParts pa2), some (ratOfParts pb2),
           some (ratOfParts pa3), some (ratOfParts pb3)⟩ ∧
        (∀ (s : ReadState) (pid : ℤ), (telcoPathStep s pid path).isSome = true ∧
          (cloudPathStep s pid path).isSome = true)) ∧
    (∀ (path o t1 t2 t3 nm a1 b1 a3 b3 : List Char) (pa1 pb1 pa3 pb3 : ℕ × ℕ),
        containsSeq arrowLit path = true →
        splitArrow path = [o, t1, t2, t3] →
        gnbTokenMatch (stripWs t1) = some (nm, a1, b1) →
        searchParen (stripWs t2) = none →
        searchParen (stripWs t3) = some (a3, b3) →
        floatParts? a1 = some pa1 → floatParts? b1 = some pb1 →
        floatParts? a3 = some pa3 → floatParts? b3 = some pb3 →
        decodeParts (splitArrow path) = Except.ok
          ⟨some nm, some (ratOfParts pa1), some (ratOfParts pb1), none, none,
           some (ratOfParts pa3), some (ratOfParts pb3)⟩ ∧
        (∀ d : HopData,
          appendSlots d ⟨some nm, some (ratOfParts pa1), some (ratOfParts pb1), none, none,
              some (ratOfParts pa3), some (ratOfParts pb3)⟩ =
            { d with gnbTimes := d.gnbTimes ++ [ratOfParts pa1],
                     gnbDistances := d.gnbDistances ++ [ratOfParts pb1],
                     telcoToTsoTimes := d.telcoToTsoTimes ++ [ratOfParts pa3],
                     telcoToTsoDistances := d.telcoToTsoDistances ++ [ratOfParts pb3] }) ∧
        (∀ (s : ReadState) (pid : ℤ), (telcoPathStep s pid path).isSome = true ∧
          (cloudPathStep s pid path).isSome = true)) ∧
    (∀ (path o t1 t2 t3 nm a1 b1 a2 b2 : List Char) (pa1 pb1 pa2 pb2 : ℕ × ℕ),
        containsSeq arrowLit path = true →
        splitArrow path = [o, t1, t2, t3] →
        gnbTokenMatch (stripWs t1) = some (nm, a1, b1) →
        searchParen (stripWs t2) = some (a2, b2) →
        searchParen (stripWs t3) = none →
        floatParts? a1 = some pa1 → floatParts? b1 = some pb1 →
        floatParts? a2 = some pa2 → floatParts? b2 = some pb2 →
        decodeParts (splitArrow path) = Except.ok
          ⟨some nm, some (ratOfParts pa1), some (ratOfParts pb1), some (ratOfParts pa2),
           some (ratOfParts pb2), none, none⟩ ∧
        (∀ (s : ReadState) (pid : ℤ), (telcoPathStep s pid path).isSome = true ∧
          (cloudPathStep s pid path).isSome = true)) ∧
    (∀ (path o t1 t2 a2 b2 : List Char) (pa2 pb2 : ℕ × ℕ),
        containsSeq arrowLit path = true →
        splitArrow path = [o, t1, t2] →
        gnbTokenMatch (stripWs t1) = none →
        searchParen (stripWs t2) = some (a2, b2) →
        floatParts? a2 = some pa2 → floatParts? b2 = some pb2 →
        decodeParts (splitArrow path) = Except.ok
          ⟨none, none, none, some (ratOfParts pa2), some (ratOfParts pb2), none, none⟩ ∧
        (∀ d : HopData,
          appendSlots d
              ⟨none, none, none, some (ratOfParts pa2), some (ratOfParts pb2), none, none⟩ =
            { d with gnbToTelcoTimes := d.gnbToTelcoTimes ++ [ratOfParts pa2],
                     gnbToTelcoDistances := d.gnbToTelcoDistances ++ [ratOfParts pb2] }) ∧
        (∀ (s : ReadState) (pid : ℤ), (telcoPathStep s pid path).isSome = true ∧
          (cloudPathStep s pid path).isSome = true)) ∧
    (∀ (path o t1 : List Char),
        containsSeq arrowLit path = true →
        splitArrow path = [o, t1] →
        gnbTokenMatch (stripWs t1) = none →
        decodeParts (splitArrow path) = Except.ok
          ⟨none, none, none, none, none, none, none⟩ ∧
        (∀ (s : ReadState) (pid : ℤ), (telcoPathStep s pid path).isSome = true ∧
          (cloudPathStep s pid path).isSome = true)) := by
  have steps : ∀ (path : List Char) (p : PathSlots),
      containsSeq arrowLit path = true →
      decodeParts (splitArrow path) = Except.ok p →
      ∀ (s : ReadState) (pid : ℤ), (telcoPathStep s pid path).isSome = true ∧
        (cloudPathStep s pid path).isSome = true := by
    intro path p hc hdec s pid
    constructor
    · unfold telcoPathStep
      rw [if_neg (by simp [hc])]
      rw [hdec]
      rfl
    · unfold cloudPathStep
      rw [if_neg (by simp [hc])]
      rw [hdec]
      rfl
  refine ⟨?_, ?_, ?_, ?_, ?_⟩
  · intro path o t1 t2 t3 a2 b2 a3 b3 pa2 pb2 pa3 pb3 hc hs hg h2 h3 f3 f4 f5 f6
    have hdec : decodeParts (splitArrow path) = Except.ok
        ⟨none, none, none, some (ratOfParts pa2), some (ratOfParts pb2),
         some (ratOfParts pa3), some (ratOfParts pb3)⟩ := by
      rw [hs]
      simp [decodeParts, decodeRaw, hg, h2, h3, f3, f4, f5, f6, liftGnb, liftPair, List.getD]
    exact ⟨hdec, steps path _ hc hdec⟩
  · intro path o t1 t2 t3 nm a1 b1 a3 b3 pa1 pb1 pa3 pb3 hc hs hg h2 h3 f1 f2 f5 f6
    have hdec : decodeParts (splitArrow path) = Except.ok
        ⟨some nm, some (ratOfParts pa1), some (ratOfParts pb1), none, none,
         some (ratOfParts pa3), some (ratOfParts pb3)⟩ := by
      rw [hs]
      simp [decodeParts, decodeRaw, hg, h2, h3, f1, f2, f5, f6, liftGnb, liftPair, List.getD]
    refine ⟨hdec, ?_, steps path _ hc hdec⟩
    intro d
    simp [appendSlots, appendOpt]
  · intro path o t1 t2 t3 nm a1 b1 a2 b2 pa1 pb1 pa2 pb2 hc hs hg h2 h3 f1 f2 f3 f4
    have hdec : decodeParts (splitArrow path) = Except.ok
        ⟨some nm, some (ratOfParts pa1), some (ratOfParts pb1), some (ratOfParts pa2),
         some (ratOfParts pb2), none, none⟩ := by
      rw [hs]
      simp [decodeParts, decodeRaw, hg, h2, h3, f1, f2, f3, f4, liftGnb, liftPair, List.getD]
    exact ⟨hdec, steps path _ hc hdec⟩
  · intro path o t1 t2 a2 b2 pa2 pb2 hc hs hg h2 hfa hfb
    have hdec : decodeParts (splitArrow path) = Except.ok
        ⟨none, none, none, some (ratOfParts pa2), some (ratOfParts pb2), none, none⟩ := by
      rw [hs]
      simp [decodeParts, decodeRaw, hg, h2, hfa, hfb, liftGnb, liftPair, List.getD]
    refine ⟨hdec, ?_, steps path _ hc hdec⟩
    intro d
    simp [appendSlots, appendOpt]
  · intro path o t1 hc hs hg
    have hdec : decodeParts (splitArrow path) = Except.ok
        ⟨none, none, none, none, none, none, none⟩ := by
      rw [hs]
      simp [decodeParts, decodeRaw, hg, liftGnb, liftPair, List.getD]
    exact ⟨hdec, steps path _ hc hdec⟩

/-- C3 witness: a bad token in each position of concrete paths — the bad
slot is null, every other slot decodes, only the decoded slots contribute
samples, and both variants' path steps succeed. -/
theorem decoderBadToken_nullSegment_witness :
    decodeParts (splitArrow
        (chars "PMU -> ??? -> TELCO (0.2s, 500.0m) -> TSO (0.3s, 700.0m)")) =
      Except.ok ⟨none, none, none, some (ratOfParts (2, 1)), some (ratOfParts (5000, 1)),
        some (ratOfParts (3, 1)), some (ratOfParts (7000, 1))⟩ ∧
    decodeParts (splitArrow
        (chars "PMU -> GNB_1 (0.1s, 10.0m) -> ??? -> TSO (0.3s, 700.0m)")) =
      Except.ok ⟨some (chars "GNB_1"), some (ratOfParts (1, 1)), some (ratOfParts (100, 1)),
        none, none, some (ratOfParts (3, 1)), some (ratOfParts (7000, 1))⟩ ∧
    appendSlots ⟨[], [], [], [], [], [], none⟩
        ⟨some (chars "GNB_1"), some (ratOfParts (1, 1)), some (ratOfParts (100, 1)),
         none, none, some (ratOfParts (3, 1)), some (ratOfParts (7000, 1))⟩ =
      ⟨[ratOfParts (1, 1)], [], [ratOfParts (3, 1)], [ratOfParts (100, 1)], [],
       [ratOfParts (7000, 1)], none⟩ ∧
    decodeParts (splitArrow
        (chars "PMU -> GNB_1 (0.1s, 10.0m) -> TELCO (0.2s, 500.0m) -> ???")) =
      Except.ok ⟨some (chars "GNB_1"), some (ratOfParts (1, 1)), some (ratOfParts (100, 1)),
        some (ratOfParts (2, 1)), some (ratOfParts (5000, 1)), none, none⟩ ∧
    decodeParts (splitArrow (chars "PMU -> ??? -> TELCO (0.2s, 500.0m)")) = Except.ok
      ⟨none, none, none, some (ratOfParts (2, 1)), some (ratOfParts (5000, 1)), none, none⟩ ∧
    decodeParts (splitArrow (chars "PMU -> ???")) = Except.ok
      ⟨none, none, none, none, none, none, none⟩ ∧
    (telcoPathStep initState 1
      (chars "PMU -> GNB_1 (0.1s, 10.0m) -> ??? -> TSO (0.3s, 700.0m)")).isSome = true ∧
    (cloudPathStep initState 1
      (chars "PMU -> GNB_1 (0.1s, 10.0m) -> ??? -> TSO (0.3s, 700.0m)")).isSome = true := by
  have h := decoderBadToken_nullSegment
  have h1 := h.1 (chars "PMU -> ??? -> TELCO (0.2s, 500.0m) -> TSO (0.3s, 700.0m)")
    (chars "PMU") (chars "???") (chars "TELCO (0.2s, 500.0m)") (chars "TSO (0.3s, 700.0m)")
    (chars "0.2") (chars "500.0") (chars "0.3") (chars "700.0")
    (2, 1) (5000, 1) (3, 1) (7000, 1)
    (by decide) (by decide) (by decide) (by decide) (by decide) (by decide) (by decide)
    (by decide) (by decide)
  have h2 := h.2.1 (chars "PMU -> GNB_1 (0.1s, 10.0m) -> ??? -> TSO (0.3s, 700.0m)")
    (chars "PMU") (chars "GNB_1 (0.1s, 10.0m)") (chars "???") (chars "TSO (0.3s, 700.0m)")
    (chars "GNB_1") (chars "0.1") (chars "10.0") (chars "0.3") (chars "700.0")
    (1, 1) (100, 1) (3, 1) (7000, 1)
    (by decide) (by decide) (by decide) (by decide) (by decide) (by decide) (by decide)
    (by decide) (by decide)
  have h3 := h.2.2.1 (chars "PMU -> GNB_1 (0.1s, 10.0m) -> TELCO (0.2s, 500.0m) -> ???")
    (chars "PMU") (chars "GNB_1 (0.1s, 10.0m)") (chars "TELCO (0.2s, 500.0m)") (chars "???")
    (chars "GNB_1") (chars "0.1") (chars "10.0") (chars "0.2") (chars "500.0")
    (1, 1) (100, 1) (2, 1) (5000, 1)
    (by decide) (by decide) (by decide) (by decide) (by decide) (by decide) (by decide)
    (by decide) (by decide)
  have h4 := h.2.2.2.1 (chars "PMU -> ??? -> TELCO (0.2s, 500.0m)")
    (chars "PMU") (chars "???") (chars "TELCO (0.2s, 500.0m)")
    (chars "0.2") (chars "500.0") (2, 1) (5000, 1)
    (by decide) (by decide) (by decide) (by decide) (by decide) (by decide)
  have h5 := h.2.2.2.2 (chars "PMU -> ???") (chars "PMU") (chars "???")
    (by decide) (by decide) (by decide)
  refine ⟨h1.1, h2.1, ?_, h3.1, h4.1, h5.1,
    (h2.2.2 initState 1).1, (h2.2.2 initState 1).2⟩
  simpa using h2.2.1 ⟨[], [], [], [], [], [], none⟩

/-! ## Claim C9 : decoder determinism and the wrong-column-count skip. -/

theorem decodeParts_threeHops (path o t1 t2 t3 nm a1 b1 a2 b2 a3 b3 : List Char)
    (pa1 pb1 pa2 pb2 pa3 pb3 : ℕ × ℕ)
    (hs : splitArrow path = [o, t1, t2, t3])
    (hg : gnbTokenMatch (stripWs t1) = some (nm, a1, b1))
    (h2 : searchParen (stripWs t2) = some (a2, b2))
    (h3 : searchParen (stripWs t3) = some (a3, b3))
    (f1 : floatParts? a1 = some pa1) (f2 : floatParts? b1 = some pb1)
    (f3 : floatParts? a2 = some pa2) (f4 : floatParts? b2 = some pb2)
    (f5 : floatParts? a3 = some pa3) (f6 : floatParts? b3 = some pb3) :
    decodeParts (splitArrow path) = Except.ok
      ⟨some nm, some (ratOfParts pa1), some (ratOfParts pb1), some (ratOfParts pa2),
       some (ratOfParts pb2), some (ratOfParts pa3), some (ratOfParts pb3)⟩ := by
  rw [hs]
  simp [decodeParts, decodeRaw, hg, h2, h3, f1, f2, f3, f4, f5, f6, liftGnb, liftPair,
    List.getD]

theorem decodeParts_twoHops (path o t1 t2 nm a1 b1 a2 b2 : List Char)
    (pa1 pb1 pa2 pb2 : ℕ × ℕ)
    (hs : splitArrow path = [o, t1, t2])
    (hg : gnbTokenMatch (stripWs t1) = some (nm, a1, b1))
    (h2 : searchParen (stripWs t2) = some (a2, b2))
    (f1 : floatParts? a1 = some pa1) (f2 : floatParts? b1 = some pb1)
    (f3 : floatParts? a2 = some pa2) (f4 : floatParts? b2 = some pb2) :
    decodeParts (splitArrow path) = Except.ok
      ⟨some nm, some (ratOfParts pa1), some (ratOfParts pb1), some (ratOfParts pa2),
       some (ratOfParts pb2), none, none⟩ := by
  rw [hs]
  simp [decodeParts, decodeRaw, hg, h2, f1, f2, f3, f4, liftGnb, liftPair, List.getD]

theorem decodeParts_oneHop (path o t1 nm a1 b1 : List Char) (pa1 pb1 : ℕ × ℕ)
    (hs : splitArrow path = [o, t1])
    (hg : gnbTokenMatch (stripWs t1) = some (nm, a1, b1))
    (f1 : floatParts? a1 = some pa1) (f2 : floatParts? b1 = some pb1) :
    decodeParts (splitArrow path) = Except.ok
      ⟨some nm, some (ratOfParts pa1), some (ratOfParts pb1), none, none, none, none⟩ := by
  rw [hs]
  simp [decodeParts, decodeRaw, hg, f1, f2, liftGnb, liftPair, List.getD]

theorem telcoFoldl_skipRow (s : ReadState) (row : List (List Char))
    (rows : List (List (List Char))) (h : row.length ≠ 7) :
    List.foldl telcoReadPmuRow s (row :: rows) = List.foldl telcoReadPmuRow s rows := by
  rw [List.foldl_cons]
  congr 1
  unfold telcoReadPmuRow
  rw [if_pos h]

/-- C9 (confirmed): for every valid N-hop path string (N = 1, 2, 3) whose
token list is origin followed by N well-formed tokens, decode yields
exactly the N segments, each paired with its own token's relay name, time
and distance (the untaken slots stay empty); and a row with the wrong
column count is skipped without aborting the batch — folding the ingest
over the trace with the bad row equals folding it over the trace without
it. -/
theorem decoderDeterminism_columnSkip :
    (∀ (path o t1 t2 t3 nm a1 b1 a2 b2 a3 b3 : List Char)
        (pa1 pb1 pa2 pb2 pa3 pb3 : ℕ × ℕ),
        splitArrow path = [o, t1, t2, t3] →
        gnbTokenMatch (stripWs t1) = some (nm, a1, b1) →
        searchParen (stripWs t2) = some (a2, b2) →
        searchParen (stripWs t3) = some (a3, b3) →
        floatParts? a1 = some pa1 → floatParts? b1 = some pb1 →
        floatParts? a2 = some pa2 → floatParts? b2 = some pb2 →
        floatParts? a3 = some pa3 → floatParts? b3 = some pb3 →
        decodeParts (splitArrow path) = Except.ok
          ⟨some nm, some (ratOfParts pa1), some (ratOfParts pb1), some (ratOfParts pa2),
           some (ratOfParts pb2), some (ratOfParts pa3), some (ratOfParts pb3)⟩) ∧
    (∀ (path o t1 t2 nm a1 b1 a2 b2 : List Char) (pa1 pb1 pa2 pb2 : ℕ × ℕ),
        splitArrow path = [o, t1, t2] →
        gnbTokenMatch (stripWs t1) = some (nm, a1, b1) →
        searchParen (stripWs t2) = some (a2, b2) →
        floatParts? a1 = some pa1 → floatParts? b1 = some pb1 →
        floatParts? a2 = some pa2 → floatParts? b2 = some pb2 →
        decodeParts (splitArrow path) = Except.ok
          ⟨some nm, some (ratOfParts pa1), some (ratOfParts pb1), some (ratOfParts pa2),
           some (ratOfParts pb2), none, none⟩) ∧
    (∀ (path o t1 nm a1 b1 : List Char) (pa1 pb1 : ℕ × ℕ),
        splitArrow path = [o, t1] →
        gnbTokenMatch (stripWs t1) = some (nm, a1, b1) →
        floatParts? a1 = some pa1 → floatParts? b1 = some pb1 →
        decodeParts (splitArrow path) = Except.ok
          ⟨some nm, some (ratOfParts pa1), some (ratOfParts pb1), none, none, none, none⟩) ∧
    (∀ (s : ReadState) (row : List (List Char)) (rows : List (List (List Char))),
        row.length ≠ 7 →
        List.foldl telcoReadPmuRow s (row :: rows) = List.foldl telcoReadPmuRow s rows) := by
  refine ⟨?_, ?_, ?_, ?_⟩
  · intro path o t1 t2 t3 nm a1 b1 a2 b2 a3 b3 pa1 pb1 pa2 pb2 pa3 pb3
      hs hg h2 h3 f1 f2 f3 f4 f5 f6
    exact decodeParts_threeHops path o t1 t2 t3 nm a1 b1 a2 b2 a3 b3
      pa1 pb1 pa2 pb2 pa3 pb3 hs hg h2 h3 f1 f2 f3 f4 f5 f6
  · intro path o t1 t2 nm a1 b1 a2 b2 pa1 pb1 pa2 pb2 hs hg h2 f1 f2 f3 f4
    exact decodeParts_twoHops path o t1 t2 nm a1 b1 a2 b2 pa1 pb1 pa2 pb2
      hs hg h2 f1 f2 f3 f4
  · intro path o t1 nm a1 b1 pa1 pb1 hs hg f1 f2
    exact decodeParts_oneHop path o t1 nm a1 b1 pa1 pb1 hs hg f1 f2
  · intro s row rows h
    exact telcoFoldl_skipRow s row rows h

/-- C9 witness: the three valid path shapes decoded at concrete paths, and
a concrete short row skipped from a concrete batch. -/
theorem decoderDeterminism_columnSkip_witness :
    decodeParts (splitArrow
        (chars "PMU -> GNB_1 (0.0060s, 42.9m) -> TELCO (0.0114s, 500.0m) -> TSO (0.0606s, 1415.6m)")) =
      Except.ok ⟨some (chars "GNB_1"), some (ratOfParts (60, 4)), some (ratOfParts (429, 1)),
        some (ratOfParts (114, 4)), some (ratOfParts (5000, 1)), some (ratOfParts (606, 4)),
        some (ratOfParts (14156, 1))⟩ ∧
    decodeParts (splitArrow (chars "PMU -> GNB_1 (0.1s, 10.0m) -> TELCO (0.2s, 500.0m)")) =
      Except.ok ⟨some (chars "GNB_1"), some (ratOfParts (1, 1)), some (ratOfParts (100, 1)),
        some (ratOfParts (2, 1)), some (ratOfParts (5000, 1)), none, none⟩ ∧
    decodeParts (splitArrow (chars "PMU -> GNB_9 (3.5s, 7.25m)")) =
      Except.ok ⟨some (chars "GNB_9"), some (ratOfParts (35, 1)), some (ratOfParts (725, 2)),
        none, none, none, none⟩ ∧
    List.foldl telcoReadPmuRow initState [[chars "bad"], telcoRowG1] =
      List.foldl telcoReadPmuRow initState [telcoRowG1] := by
  have h := decoderDeterminism_columnSkip
  refine ⟨?_, ?_, ?_, ?_⟩
  · exact h.1 _ (chars "PMU") (chars "GNB_1 (0.0060s, 42.9m)")
      (chars "TELCO (0.0114s, 500.0m)") (chars "TSO (0.0606s, 1415.6m)")
      (chars "GNB_1") (chars "0.0060") (chars "42.9") (chars "0.0114") (chars "500.0")
      (chars "0.0606") (chars "1415.6") (60, 4) (429, 1) (114, 4) (5000, 1) (606, 4)
      (14156, 1) (by decide) (by decide) (by decide) (by decide) (by decide) (by decide)
      (by decide) (by decide) (by decide) (by decide)
  · exact h.2.1 _ (chars "PMU") (chars "GNB_1 (0.1s, 10.0m)") (chars "TELCO (0.2s, 500.0m)")
      (chars "GNB_1") (chars "0.1") (chars "10.0") (chars "0.2") (chars "500.0")
      (1, 1) (100, 1) (2, 1) (5000, 1) (by decide) (by decide) (by decide) (by decide)
      (by decide) (by decide) (by decide)
  · exact h.2.2.1 _ (chars "PMU") (chars "GNB_9 (3.5s, 7.25m)") (chars "GNB_9")
      (chars "3.5") (chars "7.25") (35, 1) (725, 2) (by decide) (by decide) (by decide)
      (by decide)
  · exact h.2.2.2 initState [chars "bad"] [telcoRowG1] (by decide)

/-! ## Claim C4 : unrecognized status tokens. -/

theorem cloudPathStep_deadline {s s2 : ReadState} {pid : ℤ} {path : List Char}
    (h : cloudPathStep s pid path = some s2) :
    s2.deadlineMissedStats = s.deadlineMissedStats := by
  unfold cloudPathStep at h
  split at h
  · cases h
    rfl
  · split at h
    · cases h
    · dsimp only [] at h
      cases h
      rfl

theorem telcoPathStep_deadline {s s2 : ReadState} {pid : ℤ} {path : List Char}
    (h : telcoPathStep s pid path = some s2) :
    s2.deadlineMissedStats = s.deadlineMissedStats := by
  unfold telcoPathStep at h
  split at h
  · cases h
    rfl
  · split at h
    · cases h
    · dsimp only [] at h
      split at h <;> (cases h; rfl)

/-- C4 (counterexample): a row whose status token is neither of the
configured literals is not rejected with an UnknownStatus error: the cloud
deadline pass counts it as an on-time transfer (total 1, missed 0), the
rollup pass counts it in the total without an ok (a deadline-missed
classification in the success-rate reports), and the edge pass counts it
as on-time as well. -/
theorem unknownStatus_classified :
    (cloudReadPmuRow initState cloudRawBogus).deadlineMissedStats = [(1, 1, 0)] ∧
    chars "BOGUS" ≠ chars "DEADLINE_MISSED" ∧ chars "BOGUS" ≠ chars "OK" ∧
    (calculateAccurateTransferStats [cloudTraceRow8Bogus]).pmuStats.map
        (fun e => (e.1, e.2.ok, e.2.total)) = [(1, 0, 1)] ∧
    (telcoReadPmuRow initState telcoRowStatusX).deadlineMissedStats = [(1, 1, 0)] ∧
    chars "X" ≠ chars "L" ∧ chars "X" ≠ chars "S" :=
  ⟨by decide, by decide, by decide, by decide, by decide, by decide, by decide⟩

/-- C4 (amended): an unrecognized status token never yields an error: the
deadline passes classify it exactly like the on-time literal (the row is
counted, the missed counter is not incremented), and the rollup pass counts
the row in the totals without incrementing the ok counters. -/
theorem unknownStatus_perPass :
    (∀ (st : ReadState) (row : CloudRaw) (id : ℤ) (q0 q3 q5 : ℚ),
        pyFloat? row.time = some q0 → pyInt? row.pmuID = some id →
        pyFloat? row.dataSize = some q3 → pyFloat? row.hopSum = some q5 →
        stripWs row.status ≠ chars "DEADLINE_MISSED" →
        (cloudReadPmuRow st row).deadlineMissedStats =
          bumpDeadline st.deadlineMissedStats id false) ∧
    (∀ (st : ReadState) (row : List (List Char)) (id : ℤ) (q0 q3 q5 : ℚ),
        row.length = 7 →
        pyFloat? (row.getD 0 []) = some q0 → pyInt? (row.getD 1 []) = some id →
        pyFloat? (row.getD 3 []) = some q3 → pyFloat? (row.getD 5 []) = some q5 →
        stripWs (row.getD 6 []) ≠ chars "L" →
        (telcoReadPmuRow st row).deadlineMissedStats =
          bumpDeadline st.deadlineMissedStats id false) ∧
    (∀ (st : AccStats) (row : List (List Char)) (id : ℤ) (g : List Char) (hs : ℚ),
        row.length = 8 →
        pyInt? (row.getD 1 []) = some id → pyFloat? (row.getD 6 []) = some hs →
        accGnbName? (stripQuotes (row.getD 5 [])) = some g →
        stripWs (row.getD 7 []) ≠ chars "OK" →
        Option.map (fun e => (PmuTS.ok e, PmuTS.total e))
            (lookupA (accRow st row).pmuStats id) =
          some ((getA st.pmuStats id ⟨0, 0, g, []⟩).ok,
                (getA st.pmuStats id ⟨0, 0, g, []⟩).total + 1)) := by
  refine ⟨?_, ?_, ?_⟩
  · intro st row id q0 q3 q5 h0 h1 h3 h5 hst
    unfold cloudReadPmuRow
    rw [h0, h1, h3, h5]
    dsimp only []
    rw [decide_eq_false hst]
    split
    · rfl
    · rename_i s2 heq
      rw [coordsStep_deadline]
      exact cloudPathStep_deadline heq
  · intro st row id q0 q3 q5 h7 h0 h1 h3 h5 hst
    unfold telcoReadPmuRow
    rw [if_neg (by simp [h7])]
    rw [h0, h1, h3, h5]
    dsimp only []
    rw [decide_eq_false hst]
    split
    · rfl
    · rename_i s2 heq
      rw [coordsStep_deadline]
      exact telcoPathStep_deadline heq
  · intro st row id g hs h8 h1 h6 hg hst
    unfold accRow
    rw [if_neg (by simp [h8])]
    rw [h1, h6]
    dsimp only []
    rw [hg]
    dsimp only []
    rw [if_neg hst]
    rw [lookupA_setA_self]
    simp

/-- C4 witness: the three per-pass rules applied to the concrete rows with
the unrecognized tokens "BOGUS" and "X". -/
theorem unknownStatus_perPass_witness :
    (cloudReadPmuRow initState cloudRawBogus).deadlineMissedStats =
      bumpDeadline initState.deadlineMissedStats 1 false ∧
    (telcoReadPmuRow initState telcoRowStatusX).deadlineMissedStats =
      bumpDeadline initState.deadlineMissedStats 1 false ∧
    Option.map (fun e => (PmuTS.ok e, PmuTS.total e))
        (lookupA (accRow ⟨[], []⟩ cloudTraceRow8Bogus).pmuStats 1) =
      some ((getA (AccStats.pmuStats ⟨[], []⟩) 1 ⟨0, 0, chars "GNB_1", []⟩).ok,
            (getA (AccStats.pmuStats ⟨[], []⟩) 1 ⟨0, 0, chars "GNB_1", []⟩).total + 1) := by
  have h := unknownStatus_perPass
  refine ⟨?_, ?_, ?_⟩
  · exact h.1 initState cloudRawBogus 1 (ratOfParts (1, 1)) (ratOfParts (20, 1))
      (ratOfParts (3, 1)) rfl (by decide) rfl rfl (by decide)
  · exact h.2.1 initState telcoRowStatusX 1 (ratOfParts (1, 1)) (ratOfParts (20, 1))
      (ratOfParts (3, 1)) (by decide) rfl (by decide) rfl rfl (by decide)
  · exact h.2.2 ⟨[], []⟩ cloudTraceRow8Bogus 1 (chars "GNB_1") (ratOfParts (3, 1))
      (by decide) (by decide) rfl (by decide) (by decide)

/-! ## Claim C5 : records with zero decoded hops. -/

/-- C5 (counterexample): a record with no relay extractable from its path
is skipped entirely by calculate_accurate_transfer_stats — it contributes
to neither the per-device nor the per-relay transfer totals there — even
though the same record is still counted by the per-device deadline pass. -/
theorem zeroHop_rollupSkipped :
    (calculateAccurateTransferStats [cloudTraceRow8NoPath]).pmuStats = [] ∧
    (calculateAccurateTransferStats [cloudTraceRow8NoPath]).gnbStats = [] ∧
    (cloudReadPmuRow initState cloudRawNoPath).deadlineMissedStats = [(2, 1, 0)] :=
  ⟨rfl, rfl, by decide⟩

/-- C5 (amended): a record with zero decoded hops still counts in the
per-device deadline statistics of the hop-averages pass (and leaves hop
timing untouched), and the global pass counts every row of its accepted
column count regardless of path content; but the per-PMU / per-relay
rollup of calculate_accurate_transfer_stats skips such a record entirely,
so its transfer totals exclude it. -/
theorem zeroHop_perPass :
    (∀ (st : ReadState) (row : CloudRaw) (id : ℤ) (q0 q3 q5 : ℚ),
        pyFloat? row.time = some q0 → pyInt? row.pmuID = some id →
        pyFloat? row.dataSize = some q3 → pyFloat? row.hopSum = some q5 →
        containsSeq arrowLit (stripQuotes row.path) = false →
        (cloudReadPmuRow st row).deadlineMissedStats =
          bumpDeadline st.deadlineMissedStats id
            (decide (stripWs row.status = chars "DEADLINE_MISSED")) ∧
        (cloudReadPmuRow st row).hopTimes = st.hopTimes) ∧
    (∀ (c : ℕ × ℕ) (row : List (List Char)),
        row.length = 7 → (overallRow c row).1 = c.1 + 1) ∧
    (∀ (st : AccStats) (row : List (List Char)) (id : ℤ) (hs : ℚ),
        row.length = 8 →
        pyInt? (row.getD 1 []) = some id → pyFloat? (row.getD 6 []) = some hs →
        accGnbName? (stripQuotes (row.getD 5 [])) = none →
        accRow st row = st) := by
  refine ⟨?_, ?_, ?_⟩
  · intro st row id q0 q3 q5 h0 h1 h3 h5 hnc
    unfold cloudReadPmuRow
    rw [h0, h1, h3, h5]
    dsimp only []
    unfold cloudPathStep
    rw [if_pos hnc]
    dsimp only []
    rw [coordsStep_deadline, coordsStep_hopTimes]
    exact ⟨rfl, rfl⟩
  · intro c row h7
    unfold overallRow
    rw [if_neg (by simp [h7])]
  · intro st row id hs h8 h1 h6 hg
    unfold accRow
    rw [if_neg (by simp [h8])]
    rw [h1, h6]
    dsimp only []
    rw [hg]

/-- C5 witness: the per-pass rules applied to the concrete zero-hop rows. -/
theorem zeroHop_perPass_witness :
    (cloudReadPmuRow initState cloudRawNoPath).deadlineMissedStats =
      bumpDeadline initState.deadlineMissedStats 2
        (decide (stripWs cloudRawNoPath.status = chars "DEADLINE_MISSED")) ∧
    (cloudReadPmuRow initState cloudRawNoPath).hopTimes = initState.hopTimes ∧
    (overallRow (0, 0) telcoRow7NoPath).1 = 0 + 1 ∧
    accRow ⟨[], []⟩ cloudTraceRow8NoPath = ⟨[], []⟩ := by
  have h := zeroHop_perPass
  have ha := h.1 initState cloudRawNoPath 2 (ratOfParts (1, 1)) (ratOfParts (20, 1))
    (ratOfParts (3, 1)) rfl (by decide) rfl rfl (by decide)
  refine ⟨ha.1, ha.2, ?_, ?_⟩
  · exact h.2.1 (0, 0) telcoRow7NoPath (by decide)
  · exact h.2.2 ⟨[], []⟩ cloudTraceRow8NoPath 2 (ratOfParts (3, 1))
      (by decide) (by decide) rfl (by decide)

/-! ## Claim C8 : zero-division guards of the statistics derivation. -/

/-- C8 (confirmed): the derivation never divides by zero — the success
rate is ok/total*100 exactly when total > 0 and the 0.0 sentinel when
total = 0, the per-device deadline rate likewise, and each hop-class
average is sum/count when the class has samples and the 0.0 sentinel when
it has none. -/
theorem statisticsDerivation_zeroGuards :
    (∀ ok : ℕ, successRate ok 0 = 0) ∧
    (∀ ok total : ℕ, 0 < total → successRate ok total = (ok : ℚ) / total * 100) ∧
    (∀ (st : Option (ℕ × ℕ)) (d : HopData),
        (d.gnbTimes = [] → (deriveHopAvg st d).gnb = 0) ∧
        (d.gnbTimes ≠ [] →
          (deriveHopAvg st d).gnb = d.gnbTimes.sum / d.gnbTimes.length) ∧
        (d.gnbToTelcoTimes = [] → (deriveHopAvg st d).gnbToTelco = 0) ∧
        (d.gnbToTelcoTimes ≠ [] →
          (deriveHopAvg st d).gnbToTelco = d.gnbToTelcoTimes.sum / d.gnbToTelcoTimes.length) ∧
        (d.telcoToTsoTimes = [] → (deriveHopAvg st d).telcoToTso = 0) ∧
        (d.telcoToTsoTimes ≠ [] →
          (deriveHopAvg st d).telcoToTso = d.telcoToTsoTimes.sum / d.telcoToTsoTimes.length)) ∧
    (∀ d : HopData, (deriveHopAvg none d).deadlineMissedRate = 0) ∧
    (∀ (d : HopData) (m : ℕ), (deriveHopAvg (some (0, m)) d).deadlineMissedRate = 0) ∧
    (∀ (d : HopData) (t m : ℕ), 0 < t →
        (deriveHopAvg (some (t, m)) d).deadlineMissedRate = (m : ℚ) / t * 100) := by
  refine ⟨?_, ?_, ?_, ?_, ?_, ?_⟩
  · intro ok
    simp [successRate]
  · intro ok total h
    simp [successRate, h]
  · intro st d
    refine ⟨?_, ?_, ?_, ?_, ?_, ?_⟩ <;> intro h <;> simp [deriveHopAvg, avgOrZero, h]
  · intro d
    simp [deriveHopAvg]
  · intro d m
    simp [deriveHopAvg]
  · intro d t m h
    simp [deriveHopAvg, h]

/-- C8 witness: the guards evaluated at concrete stores — a device with
no transfers, a 3-of-4 success rate, empty and non-empty hop-class sample
lists, and both deadline-rate branches. -/
theorem statisticsDerivation_zeroGuards_witness :
    successRate 3 0 = 0 ∧
    successRate 3 4 = (3 : ℚ) / 4 * 100 ∧
    (deriveHopAvg (some (2, 1)) ⟨[], [1/2], [], [], [], [], none⟩).gnb = 0 ∧
    (deriveHopAvg (some (2, 1)) ⟨[], [1/2], [], [], [], [], none⟩).gnbToTelco =
      ([1/2] : List ℚ).sum / ([(1 : ℚ)/2] : List ℚ).length ∧
    (deriveHopAvg none ⟨[], [1/2], [], [], [], [], none⟩).deadlineMissedRate = 0 ∧
    (deriveHopAvg (some (2, 1)) ⟨[], [1/2], [], [], [], [], none⟩).deadlineMissedRate =
      (1 : ℚ) / 2 * 100 := by
  have h := statisticsDerivation_zeroGuards
  have h3 := h.2.2.1 (some (2, 1)) ⟨[], [1/2], [], [], [], [], none⟩
  refine ⟨h.1 3, h.2.1 3 4 (by norm_num), h3.1 rfl, ?_, ?_, ?_⟩
  · exact h3.2.2.2.1 (by simp)
  · exact h.2.2.2.1 ⟨[], [1/2], [], [], [], [], none⟩
  · have := h.2.2.2.2.2 ⟨[], [1/2], [], [], [], [], none⟩ 2 1 (by norm_num)
    simpa using this

/-! ## Claim C7 : sticky first-seen device position. -/

theorem lookupA_append_ne {κ α : Type} [DecidableEq κ] {l : List (κ × α)} {k : κ}
    (e : κ × α) (h : e.1 ≠ k) : lookupA (l ++ [e]) k = lookupA l k := by
  induction l with
  | nil => simp [lookupA, h]
  | cons f t ih =>
    obtain ⟨q, w⟩ := f
    by_cases hq : q = k
    · simp [lookupA, hq]
    · simp [lookupA, hq, ih]

theorem contains_append_left {l : List ℤ} {id : ℤ} (x : ℤ) (h : l.contains id = true) :
    (l ++ [x]).contains id = true := by
  simp at h ⊢
  exact Or.inl h

theorem contains_append_self (l : List ℤ) (x : ℤ) : (l ++ [x]).contains x = true := by
  simp

theorem coordsStep_preserve {s : ReadState} {id : ℤ} (i : ℤ) (c : List Char)
    (h : s.seenPmuIds.contains id = true) :
    lookupA (coordsStep s i c).pmus id = lookupA s.pmus id ∧
      (coordsStep s i c).seenPmuIds.contains id = true := by
  unfold coordsStep
  by_cases hc : s.seenPmuIds.contains i = true
  · rw [if_pos hc]
    exact ⟨rfl, h⟩
  · rw [if_neg hc]
    cases hp : parseCoords? c with
    | none => exact ⟨rfl, h⟩
    | some xy =>
      obtain ⟨x, y⟩ := xy
      have hne : (i : ℤ) ≠ id := by
        intro he
        rw [he] at hc
        exact hc h
      exact ⟨lookupA_append_ne (i, x, y) hne, contains_append_left i h⟩

theorem coordsStep_create {s : ReadState} {i : ℤ} {c : List Char} {x y : ℚ}
    (hni : s.seenPmuIds.contains i = false) (hp : parseCoords? c = some (x, y))
    (hlk : lookupA s.pmus i = none) :
    lookupA (coordsStep s i c).pmus i = some (x, y) ∧
      (coordsStep s i c).seenPmuIds.contains i = true := by
  unfold coordsStep
  rw [if_neg (by rw [hni]; simp), hp]
  exact ⟨lookupA_append_right _ hlk, contains_append_self _ _⟩

theorem telcoPathStep_pmusSeen {s s2 : ReadState} {pid : ℤ} {path : List Char}
    (h : telcoPathStep s pid path = some s2) :
    s2.pmus = s.pmus ∧ s2.seenPmuIds = s.seenPmuIds := by
  unfold telcoPathStep at h
  split at h
  · cases h
    exact ⟨rfl, rfl⟩
  · split at h
    · cases h
    · dsimp only [] at h
      split at h <;> (cases h; exact ⟨rfl, rfl⟩)

theorem cloudPathStep_pmusSeen {s s2 : ReadState} {pid : ℤ} {path : List Char}
    (h : cloudPathStep s pid path = some s2) :
    s2.pmus = s.pmus ∧ s2.seenPmuIds = s.seenPmuIds := by
  unfold cloudPathStep at h
  split at h
  · cases h
    exact ⟨rfl, rfl⟩
  · split at h
    · cases h
    · dsimp only [] at h
      cases h
      exact ⟨rfl, rfl⟩

theorem telcoPathStep_notNone {s : ReadState} {pid : ℤ} {path : List Char}
    (h : pathNoAbort path = true) : telcoPathStep s pid path ≠ none := by
  unfold telcoPathStep
  unfold pathNoAbort at h
  by_cases hc : containsSeq arrowLit path = false
  · rw [if_pos hc]
    simp
  · rw [if_neg hc]
    rw [Bool.not_eq_false] at hc
    rw [hc] at h
    simp only [Bool.not_true, Bool.false_or] at h
    cases hd : decodeParts (splitArrow path) with
    | error e => rw [hd] at h; simp [decodeOk] at h
    | ok p => simp

theorem cloudPathStep_notNone {s : ReadState} {pid : ℤ} {path : List Char}
    (h : pathNoAbort path = true) : cloudPathStep s pid path ≠ none := by
  unfold cloudPathStep
  unfold pathNoAbort at h
  by_cases hc : containsSeq arrowLit path = false
  · rw [if_pos hc]
    simp
  · rw [if_neg hc]
    rw [Bool.not_eq_false] at hc
    rw [hc] at h
    simp only [Bool.not_true, Bool.false_or] at h
    cases hd : decodeParts (splitArrow path) with
    | error e => rw [hd] at h; simp [decodeOk] at h
    | ok p => simp

theorem telcoRow_preserve {s : ReadState} {id : ℤ} (row : List (List Char))
    (h : s.seenPmuIds.contains id = true) :
    lookupA (telcoReadPmuRow s row).pmus id = lookupA s.pmus id ∧
      (telcoReadPmuRow s row).seenPmuIds.contains id = true := by
  unfold telcoReadPmuRow
  split
  · exact ⟨rfl, h⟩
  · split
    · dsimp only []
      split
      · exact ⟨rfl, h⟩
      · rename_i s2 heq
        obtain ⟨hpm, hsn⟩ := telcoPathStep_pmusSeen heq
        have hc2 : s2.seenPmuIds.contains id = true := by rw [hsn]; exact h
        obtain ⟨h1, h2⟩ := coordsStep_preserve _ _ hc2
        rw [h1, hpm]
        exact ⟨rfl, h2⟩
    · exact ⟨rfl, h⟩

theorem cloudRow_preserve {s : ReadState} {id : ℤ} (row : CloudRaw)
    (h : s.seenPmuIds.contains id = true) :
    lookupA (cloudReadPmuRow s row).pmus id = lookupA s.pmus id ∧
      (cloudReadPmuRow s row).seenPmuIds.contains id = true := by
  unfold cloudReadPmuRow
  split
  · dsimp only []
    split
    · exact ⟨rfl, h⟩
    · rename_i s2 heq
      obtain ⟨hpm, hsn⟩ := cloudPathStep_pmusSeen heq
      have hc2 : s2.seenPmuIds.contains id = true := by rw [hsn]; exact h
      obtain ⟨h1, h2⟩ := coordsStep_preserve _ _ hc2
      rw [h1, hpm]
      exact ⟨rfl, h2⟩
  · exact ⟨rfl, h⟩

theorem telcoFold_preserve {s : ReadState} {id : ℤ} (rows : List (List (List Char)))
    (h : s.seenPmuIds.contains id = true) :
    lookupA (rows.foldl telcoReadPmuRow s).pmus id = lookupA s.pmus id ∧
      (rows.foldl telcoReadPmuRow s).seenPmuIds.contains id = true := by
  induction rows generalizing s with
  | nil => exact ⟨rfl, h⟩
  | cons r t ih =>
    obtain ⟨h1, h2⟩ := telcoRow_preserve r h
    obtain ⟨h3, h4⟩ := ih h2
    rw [List.foldl_cons]
    rw [h3, h1]
    exact ⟨rfl, h4⟩

theorem cloudFold_preserve {s : ReadState} {id : ℤ} (rows : List CloudRaw)
    (h : s.seenPmuIds.contains id = true) :
    lookupA (rows.foldl cloudReadPmuRow s).pmus id = lookupA s.pmus id ∧
      (rows.foldl cloudReadPmuRow s).seenPmuIds.contains id = true := by
  induction rows generalizing s with
  | nil => exact ⟨rfl, h⟩
  | cons r t ih =>
    obtain ⟨h1, h2⟩ := cloudRow_preserve r h
    obtain ⟨h3, h4⟩ := ih h2
    rw [List.foldl_cons]
    rw [h3, h1]
    exact ⟨rfl, h4⟩

theorem telcoRow_create {s : ReadState} {id : ℤ} {x y : ℚ}
    (row : List (List Char)) (q0 q3 q5 : ℚ)
    (h7 : row.length = 7)
    (h0 : pyFloat? (row.getD 0 []) = some q0)
    (h1 : pyInt? (row.getD 1 []) = some id)
    (h3 : pyFloat? (row.getD 3 []) = some q3)
    (h5 : pyFloat? (row.getD 5 []) = some q5)
    (hpa : pathNoAbort (stripQuotes (row.getD 4 [])) = true)
    (hns : s.seenPmuIds.contains id = false)
    (hlk : lookupA s.pmus id = none)
    (hpc : parseCoords? (stripQuotes (row.getD 2 [])) = some (x, y)) :
    lookupA (telcoReadPmuRow s row).pmus id = some (x, y) ∧
      (telcoReadPmuRow s row).seenPmuIds.contains id = true := by
  unfold telcoReadPmuRow
  rw [if_neg (by simp [h7])]
  rw [h0, h1, h3, h5]
  dsimp only []
  split
  · rename_i heq
    exact absurd heq (telcoPathStep_notNone hpa)
  · rename_i s2 heq
    obtain ⟨hpm, hsn⟩ := telcoPathStep_pmusSeen heq
    have hns2 : s2.seenPmuIds.contains id = false := by rw [hsn]; exact hns
    have hlk2 : lookupA s2.pmus id = none := by rw [hpm]; exact hlk
    exact coordsStep_create hns2 hpc hlk2

theorem cloudRow_create {s : ReadState} {id : ℤ} {x y : ℚ}
    (row : CloudRaw) (q0 q3 q5 : ℚ)
    (h0 : pyFloat? row.time = some q0)
    (h1 : pyInt? row.pmuID = some id)
    (h3 : pyFloat? row.dataSize = some q3)
    (h5 : pyFloat? row.hopSum = some q5)
    (hpa : pathNoAbort (stripQuotes row.path) = true)
    (hns : s.seenPmuIds.contains id = false)
    (hlk : lookupA s.pmus id = none)
    (hpc : parseCoords? (stripQuotes row.pmuCoordinates) = some (x, y)) :
    lookupA (cloudReadPmuRow s row).pmus id = some (x, y) ∧
      (cloudReadPmuRow s row).seenPmuIds.contains id = true := by
  unfold cloudReadPmuRow
  rw [h0, h1, h3, h5]
  dsimp only []
  split
  · rename_i heq
    exact absurd heq (cloudPathStep_notNone hpa)
  · rename_i s2 heq
    obtain ⟨hpm, hsn⟩ := cloudPathStep_pmusSeen heq
    have hns2 : s2.seenPmuIds.contains id = false := by rw [hsn]; exact hns
    have hlk2 : lookupA s2.pmus id = none := by rw [hpm]; exact hlk
    exact coordsStep_create hns2 hpc hlk2

/-- C7 (confirmed): a device's position is fixed to its first successfully
parsed occurrence in both variants: the first record of an unseen device
with parseable coordinates stores them and marks the device seen, and once
a device is seen, ingesting any further records — whatever coordinates they
carry — never changes its stored position. -/
theorem devicePosition_firstSeen_sticky :
    (∀ (s : ReadState) (row : List (List Char)) (id : ℤ) (x y q0 q3 q5 : ℚ),
        row.length = 7 →
        pyFloat? (row.getD 0 []) = some q0 → pyInt? (row.getD 1 []) = some id →
        pyFloat? (row.getD 3 []) = some q3 → pyFloat? (row.getD 5 []) = some q5 →
        pathNoAbort (stripQuotes (row.getD 4 [])) = true →
        s.seenPmuIds.contains id = false → lookupA s.pmus id = none →
        parseCoords? (stripQuotes (row.getD 2 [])) = some (x, y) →
        lookupA (telcoReadPmuRow s row).pmus id = some (x, y) ∧
          (telcoReadPmuRow s row).seenPmuIds.contains id = true) ∧
    (∀ (s : ReadState) (rows : List (List (List Char))) (id : ℤ),
        s.seenPmuIds.contains id = true →
        lookupA (rows.foldl telcoReadPmuRow s).pmus id = lookupA s.pmus id ∧
          (rows.foldl telcoReadPmuRow s).seenPmuIds.contains id = true) ∧
    (∀ (s : ReadState) (row : CloudRaw) (id : ℤ) (x y q0 q3 q5 : ℚ),
        pyFloat? row.time = some q0 → pyInt? row.pmuID = some id →
        pyFloat? row.dataSize = some q3 → pyFloat? row.hopSum = some q5 →
        pathNoAbort (stripQuotes row.path) = true →
        s.seenPmuIds.contains id = false → lookupA s.pmus id = none →
        parseCoords? (stripQuotes row.pmuCoordinates) = some (x, y) →
        lookupA (cloudReadPmuRow s row).pmus id = some (x, y) ∧
          (cloudReadPmuRow s row).seenPmuIds.contains id = true) ∧
    (∀ (s : ReadState) (rows : List CloudRaw) (id : ℤ),
        s.seenPmuIds.contains id = true →
        lookupA (rows.foldl cloudReadPmuRow s).pmus id = lookupA s.pmus id ∧
          (rows.foldl cloudReadPmuRow s).seenPmuIds.contains id = true) := by
  refine ⟨?_, ?_, ?_, ?_⟩
  · intro s row id x y q0 q3 q5 h7 h0 h1 h3 h5 hpa hns hlk hpc
    exact telcoRow_create row q0 q3 q5 h7 h0 h1 h3 h5 hpa hns hlk hpc
  · intro s rows id h
    exact telcoFold_preserve rows h
  · intro s row id x y q0 q3 q5 h0 h1 h3 h5 hpa hns hlk hpc
    exact cloudRow_create row q0 q3 q5 h0 h1 h3 h5 hpa hns hlk hpc
  · intro s rows id h
    exact cloudFold_preserve rows h

/-- C7 witness: in both variants, after a first record for device 1 at
(100.0, 200.0) and a second record with different parseable coordinates
(300.0, 400.0), the stored position is still the first record's. -/
theorem devicePosition_firstSeen_sticky_witness :
    lookupA ([telcoRowOtherCoords].foldl telcoReadPmuRow
        (telcoReadPmuRow initState telcoRowG1)).pmus 1 =
      some (ratOfParts (1000, 1), ratOfParts (2000, 1)) ∧
    lookupA ([cloudRawOtherCoords].foldl cloudReadPmuRow
        (cloudReadPmuRow initState cloudRawG1)).pmus 1 =
      some (ratOfParts (1000, 1), ratOfParts (2000, 1)) := by
  have h := devicePosition_firstSeen_sticky
  have hc1 := h.1 initState telcoRowG1 1 (ratOfParts (1000, 1)) (ratOfParts (2000, 1))
    (ratOfParts (1, 1)) (ratOfParts (20, 1)) (ratOfParts (3, 1))
    (by decide) rfl (by decide) rfl rfl (by decide) (by decide) rfl rfl
  have hp1 := h.2.1 (telcoReadPmuRow initState telcoRowG1) [telcoRowOtherCoords] 1 hc1.2
  have hc2 := h.2.2.1 initState cloudRawG1 1 (ratOfParts (1000, 1)) (ratOfParts (2000, 1))
    (ratOfParts (1, 1)) (ratOfParts (20, 1)) (ratOfParts (3, 1))
    rfl (by decide) rfl rfl (by decide) (by decide) rfl rfl
  have hp2 := h.2.2.2 (cloudReadPmuRow initState cloudRawG1) [cloudRawOtherCoords] 1 hc2.2
  exact ⟨by rw [hp1.1, hc1.1], by rw [hp2.1, hc2.1]⟩

/-! ## Claim C10 : first parseable coordinate occurrence. -/

theorem getA_setA_self {κ α : Type} [DecidableEq κ] (l : List (κ × α)) (k : κ) (v d : α) :
    getA (setA l k v) k d = v := by
  induction l with
  | nil => simp [setA, getA]
  | cons e t ih =>
    obtain ⟨q, w⟩ := e
    by_cases h : q = k
    · simp [setA, getA, h]
    · simp [setA, getA, h, ih]

theorem getA_bumpDeadline (l : List (ℤ × ℕ × ℕ)) (k : ℤ) (b : Bool) :
    getA (bumpDeadline l k b) k (0, 0) =
      ((getA l k (0, 0)).1 + 1, (getA l k (0, 0)).2 + if b then 1 else 0) := by
  unfold bumpDeadline
  rw [getA_setA_self]

theorem coordsStep_noCoords {c : List Char} (s : ReadState) (i : ℤ)
    (hp : parseCoords? c = none) : coordsStep s i c = s := by
  unfold coordsStep
  by_cases hc : s.seenPmuIds.contains i = true
  · rw [if_pos hc]
  · rw [if_neg hc, hp]

theorem telcoRow_unparseable {s : ReadState} {id : ℤ} (row : List (List Char))
    (q0 q3 q5 : ℚ)
    (h7 : row.length = 7)
    (h0 : pyFloat? (row.getD 0 []) = some q0)
    (h1 : pyInt? (row.getD 1 []) = some id)
    (h3 : pyFloat? (row.getD 3 []) = some q3)
    (h5 : pyFloat? (row.getD 5 []) = some q5)
    (hpa : pathNoAbort (stripQuotes (row.getD 4 [])) = true)
    (hpc : parseCoords? (stripQuotes (row.getD 2 [])) = none) :
    (telcoReadPmuRow s row).pmus = s.pmus ∧
    (telcoReadPmuRow s row).seenPmuIds = s.seenPmuIds ∧
    (telcoReadPmuRow s row).deadlineMissedStats =
      bumpDeadline s.deadlineMissedStats id (telcoRowMissed row) := by
  unfold telcoReadPmuRow
  rw [if_neg (by simp [h7])]
  rw [h0, h1, h3, h5]
  dsimp only []
  split
  · rename_i heq
    exact absurd heq (telcoPathStep_notNone hpa)
  · rename_i s2 heq
    rw [coordsStep_noCoords _ _ hpc]
    obtain ⟨hpm, hsn⟩ := telcoPathStep_pmusSeen heq
    have hds := telcoPathStep_deadline heq
    rw [hpm, hsn, hds]
    exact ⟨rfl, rfl, rfl⟩

theorem telcoFold_unparseable {id : ℤ} (rows : List (List (List Char))) (s : ReadState)
    (h : ∀ r ∈ rows, telcoRowFor r id = true ∧ coordsUnparseable r = true) :
    (rows.foldl telcoReadPmuRow s).pmus = s.pmus ∧
    (rows.foldl telcoReadPmuRow s).seenPmuIds = s.seenPmuIds ∧
    getA (rows.foldl telcoReadPmuRow s).deadlineMissedStats id (0, 0) =
      ((getA s.deadlineMissedStats id (0, 0)).1 + rows.length,
       (getA s.deadlineMissedStats id (0, 0)).2 + rows.countP telcoRowMissed) := by
  induction rows generalizing s with
  | nil => exact ⟨rfl, rfl, by simp⟩
  | cons r t ih =>
    obtain ⟨hf, hu⟩ := h r (List.mem_cons_self r t)
    unfold telcoRowFor at hf
    simp only [Bool.and_eq_true, beq_iff_eq, Option.isSome_iff_exists] at hf
    obtain ⟨⟨⟨⟨⟨h7, ⟨q0, h0⟩⟩, h1⟩, ⟨q3, h3⟩⟩, ⟨q5, h5⟩⟩, hpa⟩ := hf
    unfold coordsUnparseable at hu
    rw [Option.isNone_iff_eq_none] at hu
    obtain ⟨hpm, hsn, hds⟩ := telcoRow_unparseable r q0 q3 q5 h7 h0 h1 h3 h5 hpa hu
    rw [List.foldl_cons]
    obtain ⟨ihp, ihs, ihd⟩ := ih (telcoReadPmuRow s r) (fun x hx => h x (List.mem_cons_of_mem r hx))
    refine ⟨by rw [ihp, hpm], by rw [ihs, hsn], ?_⟩
    rw [ihd, hds, getA_bumpDeadline]
    simp only [List.length_cons, List.countP_cons]
    rw [Prod.mk.injEq]
    refine ⟨by omega, ?_⟩
    by_cases hb : telcoRowMissed r = true
    · simp [hb]
      omega
    · simp [hb]

theorem cloudRow_unparseable {s : ReadState} {id : ℤ} (row : CloudRaw) (q0 q3 q5 : ℚ)
    (h0 : pyFloat? row.time = some q0)
    (h1 : pyInt? row.pmuID = some id)
    (h3 : pyFloat? row.dataSize = some q3)
    (h5 : pyFloat? row.hopSum = some q5)
    (hpa : pathNoAbort (stripQuotes row.path) = true)
    (hpc : parseCoords? (stripQuotes row.pmuCoordinates) = none) :
    (cloudReadPmuRow s row).pmus = s.pmus ∧
    (cloudReadPmuRow s row).seenPmuIds = s.seenPmuIds ∧
    (cloudReadPmuRow s row).deadlineMissedStats =
      bumpDeadline s.deadlineMissedStats id (cloudRawMissed row) := by
  unfold cloudReadPmuRow
  rw [h0, h1, h3, h5]
  dsimp only []
  split
  · rename_i heq
    exact absurd heq (cloudPathStep_notNone hpa)
  · rename_i s2 heq
    rw [coordsStep_noCoords _ _ hpc]
    obtain ⟨hpm, hsn⟩ := cloudPathStep_pmusSeen heq
    have hds := cloudPathStep_deadline heq
    rw [hpm, hsn, hds]
    exact ⟨rfl, rfl, rfl⟩

theorem cloudFold_unparseable {id : ℤ} (rows : List CloudRaw) (s : ReadState)
    (h : ∀ r ∈ rows, cloudRowFor r id = true ∧ cloudCoordsUnparseable r = true) :
    (rows.foldl cloudReadPmuRow s).pmus = s.pmus ∧
    (rows.foldl cloudReadPmuRow s).seenPmuIds = s.seenPmuIds ∧
    getA (rows.foldl cloudReadPmuRow s).deadlineMissedStats id (0, 0) =
      ((getA s.deadlineMissedStats id (0, 0)).1 + rows.length,
       (getA s.deadlineMissedStats id (0, 0)).2 + rows.countP cloudRawMissed) := by
  induction rows generalizing s with
  | nil => exact ⟨rfl, rfl, by simp⟩
  | cons r t ih =>
    obtain ⟨hf, hu⟩ := h r (List.mem_cons_self r t)
    unfold cloudRowFor at hf
    simp only [Bool.and_eq_true, beq_iff_eq, Option.isSome_iff_exists] at hf
    obtain ⟨⟨⟨⟨⟨q0, h0⟩, h1⟩, ⟨q3, h3⟩⟩, ⟨q5, h5⟩⟩, hpa⟩ := hf
    unfold cloudCoordsUnparseable at hu
    rw [Option.isNone_iff_eq_none] at hu
    obtain ⟨hpm, hsn, hds⟩ := cloudRow_unparseable r q0 q3 q5 h0 h1 h3 h5 hpa hu
    rw [List.foldl_cons]
    obtain ⟨ihp, ihs, ihd⟩ :=
      ih (cloudReadPmuRow s r) (fun x hx => h x (List.mem_cons_of_mem r hx))
    refine ⟨by rw [ihp, hpm], by rw [ihs, hsn], ?_⟩
    rw [ihd, hds, getA_bumpDeadline]
    simp only [List.length_cons, List.countP_cons]
    rw [Prod.mk.injEq]
    refine ⟨by omega, ?_⟩
    by_cases hb : cloudRawMissed r = true
    · simp [hb]
      omega
    · simp [hb]

/-- C10 (confirmed), in both variants: a fully processed record whose
coordinate token fails to parse does not mark its device as seen and
stores no position, while its deadline statistics still accumulate; the
earliest later record whose coordinate token parses then stores its
coordinates; and a device none of whose records have parseable coordinates
ends with no position entry while its transfer count and missed count
equal the row counts. -/
theorem position_firstParseableOccurrence :
    (∀ (s : ReadState) (row : List (List Char)) (id : ℤ) (q0 q3 q5 : ℚ),
        row.length = 7 →
        pyFloat? (row.getD 0 []) = some q0 → pyInt? (row.getD 1 []) = some id →
        pyFloat? (row.getD 3 []) = some q3 → pyFloat? (row.getD 5 []) = some q5 →
        pathNoAbort (stripQuotes (row.getD 4 [])) = true →
        parseCoords? (stripQuotes (row.getD 2 [])) = none →
        (telcoReadPmuRow s row).pmus = s.pmus ∧
        (telcoReadPmuRow s row).seenPmuIds = s.seenPmuIds ∧
        (telcoReadPmuRow s row).deadlineMissedStats =
          bumpDeadline s.deadlineMissedStats id (telcoRowMissed row)) ∧
    (∀ (s : ReadState) (row : List (List Char)) (id : ℤ) (x y q0 q3 q5 : ℚ),
        row.length = 7 →
        pyFloat? (row.getD 0 []) = some q0 → pyInt? (row.getD 1 []) = some id →
        pyFloat? (row.getD 3 []) = some q3 → pyFloat? (row.getD 5 []) = some q5 →
        pathNoAbort (stripQuotes (row.getD 4 [])) = true →
        s.seenPmuIds.contains id = false → lookupA s.pmus id = none →
        parseCoords? (stripQuotes (row.getD 2 [])) = some (x, y) →
        lookupA (telcoReadPmuRow s row).pmus id = some (x, y) ∧
          (telcoReadPmuRow s row).seenPmuIds.contains id = true) ∧
    (∀ (rows : List (List (List Char))) (s : ReadState) (id : ℤ),
        (∀ r ∈ rows, telcoRowFor r id = true ∧ coordsUnparseable r = true) →
        (rows.foldl telcoReadPmuRow s).pmus = s.pmus ∧
        (rows.foldl telcoReadPmuRow s).seenPmuIds = s.seenPmuIds ∧
        getA (rows.foldl telcoReadPmuRow s).deadlineMissedStats id (0, 0) =
          ((getA s.deadlineMissedStats id (0, 0)).1 + rows.length,
           (getA s.deadlineMissedStats id (0, 0)).2 + rows.countP telcoRowMissed)) ∧
    (∀ (s : ReadState) (row : CloudRaw) (id : ℤ) (q0 q3 q5 : ℚ),
        pyFloat? row.time = some q0 → pyInt? row.pmuID = some id →
        pyFloat? row.dataSize = some q3 → pyFloat? row.hopSum = some q5 →
        pathNoAbort (stripQuotes row.path) = true →
        parseCoords? (stripQuotes row.pmuCoordinates) = none →
        (cloudReadPmuRow s row).pmus = s.pmus ∧
        (cloudReadPmuRow s row).seenPmuIds = s.seenPmuIds ∧
        (cloudReadPmuRow s row).deadlineMissedStats =
          bumpDeadline s.deadlineMissedStats id (cloudRawMissed row)) ∧
    (∀ (s : ReadState) (row : CloudRaw) (id : ℤ) (x y q0 q3 q5 : ℚ),
        pyFloat? row.time = some q0 → pyInt? row.pmuID = some id →
        pyFloat? row.dataSize = some q3 → pyFloat? row.hopSum = some q5 →
        pathNoAbort (stripQuotes row.path) = true →
        s.seenPmuIds.contains id = false → lookupA s.pmus id = none →
        parseCoords? (stripQuotes row.pmuCoordinates) = some (x, y) →
        lookupA (cloudReadPmuRow s row).pmus id = some (x, y) ∧
          (cloudReadPmuRow s row).seenPmuIds.contains id = true) ∧
    (∀ (rows : List CloudRaw) (s : ReadState) (id : ℤ),
        (∀ r ∈ rows, cloudRowFor r id = true ∧ cloudCoordsUnparseable r = true) →
        (rows.foldl cloudReadPmuRow s).pmus = s.pmus ∧
        (rows.foldl cloudReadPmuRow s).seenPmuIds = s.seenPmuIds ∧
        getA (rows.foldl cloudReadPmuRow s).deadlineMissedStats id (0, 0) =
          ((getA s.deadlineMissedStats id (0, 0)).1 + rows.length,
           (getA s.deadlineMissedStats id (0, 0)).2 + rows.countP cloudRawMissed)) := by
  refine ⟨?_, ?_, ?_, ?_, ?_, ?_⟩
  · intro s row id q0 q3 q5 h7 h0 h1 h3 h5 hpa hpc
    exact telcoRow_unparseable row q0 q3 q5 h7 h0 h1 h3 h5 hpa hpc
  · intro s row id x y q0 q3 q5 h7 h0 h1 h3 h5 hpa hns hlk hpc
    exact telcoRow_create row q0 q3 q5 h7 h0 h1 h3 h5 hpa hns hlk hpc
  · intro rows s id h
    exact telcoFold_unparseable rows s h
  · intro s row id q0 q3 q5 h0 h1 h3 h5 hpa hpc
    exact cloudRow_unparseable row q0 q3 q5 h0 h1 h3 h5 hpa hpc
  · intro s row id x y q0 q3 q5 h0 h1 h3 h5 hpa hns hlk hpc
    exact cloudRow_create row q0 q3 q5 h0 h1 h3 h5 hpa hns hlk hpc
  · intro rows s id h
    exact cloudFold_unparseable rows s h

/-- C10 witness, both variants: two records of device 9 with unparseable
coordinates leave no position and no seen mark while counting 2 transfers
and 1 missed deadline (hop timing still accumulated both samples), and a
later record with parseable coordinates then stores its own position
(7.0, 8.0). -/
theorem position_firstParseableOccurrence_witness :
    ([telcoRow9a, telcoRow9b].foldl telcoReadPmuRow initState).pmus = initState.pmus ∧
    ([telcoRow9a, telcoRow9b].foldl telcoReadPmuRow initState).seenPmuIds =
      initState.seenPmuIds ∧
    getA ([telcoRow9a, telcoRow9b].foldl telcoReadPmuRow initState).deadlineMissedStats
        9 (0, 0) =
      ((getA initState.deadlineMissedStats 9 (0, 0)).1 + 2,
       (getA initState.deadlineMissedStats 9 (0, 0)).2 + 1) ∧
    (([telcoRow9a, telcoRow9b].foldl telcoReadPmuRow initState).hopTimes.map
        (fun e => (e.1, e.2.gnbTimes.length))) = [(9, 2)] ∧
    lookupA (telcoReadPmuRow ([telcoRow9a, telcoRow9b].foldl telcoReadPmuRow initState)
        telcoRow9c).pmus 9 = some (ratOfParts (70, 1), ratOfParts (80, 1)) ∧
    ([cloudRaw9a, cloudRaw9b].foldl cloudReadPmuRow initState).pmus = initState.pmus ∧
    ([cloudRaw9a, cloudRaw9b].foldl cloudReadPmuRow initState).seenPmuIds =
      initState.seenPmuIds ∧
    getA ([cloudRaw9a, cloudRaw9b].foldl cloudReadPmuRow initState).deadlineMissedStats
        9 (0, 0) =
      ((getA initState.deadlineMissedStats 9 (0, 0)).1 + 2,
       (getA initState.deadlineMissedStats 9 (0, 0)).2 + 1) ∧
    (([cloudRaw9a, cloudRaw9b].foldl cloudReadPmuRow initState).hopTimes.map
        (fun e => (e.1, e.2.gnbTimes.length))) = [(9, 2)] ∧
    lookupA (cloudReadPmuRow ([cloudRaw9a, cloudRaw9b].foldl cloudReadPmuRow initState)
        cloudRaw9c).pmus 9 = some (ratOfParts (70, 1), ratOfParts (80, 1)) := by
  have h := position_firstParseableOccurrence
  have hf := h.2.2.1 [telcoRow9a, telcoRow9b] initState 9 (by decide)
  have hc := h.2.1 ([telcoRow9a, telcoRow9b].foldl telcoReadPmuRow initState) telcoRow9c 9
    (ratOfParts (70, 1)) (ratOfParts (80, 1))
    (ratOfParts (3, 1)) (ratOfParts (20, 1)) (ratOfParts (1, 1))
    (by decide) rfl (by decide) rfl rfl (by decide)
    (by rw [hf.2.1]; decide) (by rw [hf.1]; decide) rfl
  have hcount : ([telcoRow9a, telcoRow9b].countP telcoRowMissed) = 1 := by decide
  have hf2 := h.2.2.2.2.2 [cloudRaw9a, cloudRaw9b] initState 9 (by decide)
  have hc2 := h.2.2.2.2.1 ([cloudRaw9a, cloudRaw9b].foldl cloudReadPmuRow initState)
    cloudRaw9c 9 (ratOfParts (70, 1)) (ratOfParts (80, 1))
    (ratOfParts (3, 1)) (ratOfParts (20, 1)) (ratOfParts (1, 1))
    rfl (by decide) rfl rfl (by decide)
    (by rw [hf2.2.1]; decide) (by rw [hf2.1]; decide) rfl
  have hcount2 : ([cloudRaw9a, cloudRaw9b].countP cloudRawMissed) = 1 := by decide
  refine ⟨hf.1, hf.2.1, ?_, by decide, hc.1, hf2.1, hf2.2.1, ?_, by decide, hc2.1⟩
  · rw [hf.2.2, hcount]
    rfl
  · rw [hf2.2.2, hcount2]
    rfl

/-! ## Claim C6 : the per-relay two-level time average. -/

theorem pmuToGnbAvg_czrows : calculatePmuToGnbAverageTimes czrows = [(1, 1/10), (2, 0)] := by
  unfold calculatePmuToGnbAverageTimes
  rw [show (czrows.take 2000).foldl pmuGnbRow [] =
    [(1, [ratOfParts (1, 1)]), (2, [ratOfParts (0, 1)])] from rfl]
  simp [List.filterMap]
  norm_num [ratOfParts]

theorem accStats_czrows : (calculateAccurateTransferStats czrows).pmuStats =
    [(1, ⟨1, 1, chars "GNB_1", [ratOfParts (3, 1)]⟩),
     (2, ⟨1, 1, chars "GNB_1", [ratOfParts (3, 1)]⟩)] := rfl

theorem pmuToGnbAvg_curows :
    calculatePmuToGnbAverageTimes curows = [(1, 1/10), (2, 3/10)] := by
  unfold calculatePmuToGnbAverageTimes
  rw [show (curows.take 2000).foldl pmuGnbRow [] =
    [(1, [ratOfParts (1, 1), ratOfParts (1, 1), ratOfParts (1, 1)]),
     (2, [ratOfParts (3, 1)])] from rfl]
  simp [List.filterMap]
  norm_num [ratOfParts]

theorem accStats_curows : (calculateAccurateTransferStats curows).pmuStats =
    [(1, ⟨3, 3, chars "GNB_1", [ratOfParts (3, 1), ratOfParts (3, 1), ratOfParts (3, 1)]⟩),
     (2, ⟨1, 1, chars "GNB_1", [ratOfParts (3, 1)]⟩)] := rfl

theorem relayAvgTime_eq_meanPos (ps : List (ℤ × PmuTS)) (avgs : List (ℤ × ℚ))
    (g : List Char) :
    relayAvgTime ps avgs g = relayMeanOfPositiveDeviceMeans ps avgs g := by
  unfold relayAvgTime relayMeanOfPositiveDeviceMeans
  have h : (ps.filterMap (fun e =>
      if e.2.gnbName = g then
        let t := getA avgs e.1 0
        if 0 < t then some t else none
      else none)) =
      (ps.filterMap (fun e =>
        if e.2.gnbName = g then some (getA avgs e.1 0) else none)).filter
          (fun t => decide (0 < t)) := by
    induction ps with
    | nil => simp
    | cons e t ih =>
      by_cases hg : e.2.gnbName = g
      · by_cases hp : 0 < getA avgs e.1 0
        · simp [List.filterMap_cons, hg, hp, List.filter_cons, ih]
        · simp [List.filterMap_cons, hg, hp, List.filter_cons, ih]
      · simp [List.filterMap_cons, hg, ih]
  rw [h]

/-- C6 (counterexample): the relay average is not the unweighted mean of
the device-level averages of all assigned devices: with devices 1 and 2
assigned to GNB_1 and device-level averages 0.1s and 0.0s, the claim's
mean is 0.05s but the computed relay average is 0.1s, because the zero
device average is filtered out. -/
theorem relayAverage_skipsZeroDeviceMean :
    calculatePmuToGnbAverageTimes czrows = [(1, 1/10), (2, 0)] ∧
    (calculateAccurateTransferStats czrows).pmuStats.map
        (fun e => (e.1, e.2.gnbName)) = [(1, chars "GNB_1"), (2, chars "GNB_1")] ∧
    relayAvgTime (calculateAccurateTransferStats czrows).pmuStats
        (calculatePmuToGnbAverageTimes czrows) (chars "GNB_1") = 1/10 ∧
    (1/10 : ℚ) ≠ (1/10 + 0) / 2 := by
  refine ⟨pmuToGnbAvg_czrows, ?_, ?_, by norm_num⟩
  · rw [accStats_czrows]
    rfl
  · rw [accStats_czrows, pmuToGnbAvg_czrows]
    unfold relayAvgTime
    simp [List.filterMap, getA]

/-- C6 (amended): the per-relay average time equals the unweighted mean of
the positive device-level average times of the devices assigned to that
relay (never a transfer-count-weighted mean): with device averages 0.10s
(from three samples) and 0.30s (from one sample) the relay average is
0.20s, not the weighted 0.15s. -/
theorem relayAverage_twoLevelMeanOfPositives :
    (∀ (ps : List (ℤ × PmuTS)) (avgs : List (ℤ × ℚ)) (g : List Char),
        relayAvgTime ps avgs g = relayMeanOfPositiveDeviceMeans ps avgs g) ∧
    relayAvgTime (calculateAccurateTransferStats curows).pmuStats
        (calculatePmuToGnbAverageTimes curows) (chars "GNB_1") = 1/5 ∧
    calculatePmuToGnbAverageTimes curows = [(1, 1/10), (2, 3/10)] ∧
    (3 * (1/10 : ℚ) + 1 * (3/10)) / 4 = 3/20 ∧
    (1/5 : ℚ) ≠ 3/20 := by
  refine ⟨relayAvgTime_eq_meanPos, ?_, pmuToGnbAvg_curows, by norm_num, by norm_num⟩
  rw [accStats_curows, pmuToGnbAvg_curows]
  unfold relayAvgTime
  simp [List.filterMap, getA]
  norm_num
